import Mathlib

/-!
Verification of the Linux gamepad backend (`internal/gamepad/gamepad_linux.go`).

The Go source is shallowly embedded: machine integers become `Nat`/`Int`
(with explicit wrap-around where the Go code relies on it), `float64`
arithmetic becomes exact rational (`ℚ`) arithmetic, fixed-size Go arrays
become total functions on `Nat` with explicit bounds checks at every access
site (an out-of-bounds access, which panics in Go, is modelled by `none`),
and fallible system calls are modelled by an explicit environment record.
-/

set_option maxRecDepth 16384

namespace Ebiten.GamepadLinux

/-! ### Kernel input constants

These mirror the Linux kernel input ABI constants used by the backend
(`unix.EV_*`, and the repository's `_KEY_CNT`, `_ABS_CNT`, `_BTN_MISC`,
`_ABS_HAT0X`, `_ABS_HAT3Y`, `_SYN_REPORT`, `_SYN_DROPPED` mirrors, which are
declared outside the excerpted source file). Their values are the fixed
kernel ABI values referenced by the spec's external-interface section. -/

def EV_SYN : Nat := 0x00
def EV_KEY : Nat := 0x01
def EV_ABS : Nat := 0x03

def BTN_MISC : Nat := 0x100
def KEY_CNT : Nat := 0x300
def ABS_CNT : Nat := 0x40
def ABS_HAT0X : Nat := 0x10
def ABS_HAT3Y : Nat := 0x17

def SYN_REPORT : Nat := 0
def SYN_DROPPED : Nat := 3

/-- Modelled from the spec: the hat direction bits (declared in the
cross-platform `gamepad.go`, outside the excerpted source). The spec
describes a hat as a "4-bit mask (up/down/left/right bits, independently
combinable)"; the four bits are distinct powers of two, `hatCentered`
being the empty mask. -/
def hatCentered : Nat := 0

/-- Modelled from the spec: hat "up" direction bit. -/
def hatUp : Nat := 1

/-- Modelled from the spec: hat "right" direction bit. -/
def hatRight : Nat := 2

/-- Modelled from the spec: hat "down" direction bit. -/
def hatDown : Nat := 4

/-- Modelled from the spec: hat "left" direction bit. -/
def hatLeft : Nat := 8

/-- Bitwise AND NOT on `Nat`, Go's `x &^ y`.  Since the bits of
`x &&& y` are a subset of the bits of `x`, `x &^ y = x ^^^ (x &&& y)`. -/
def andn (x y : Nat) : Nat := x ^^^ (x &&& y)

/-! ### Data model -/

/-- Kernel `input_id` record (all fields `uint16`). -/
structure input_id where
  bustype : Nat
  vendor : Nat
  product : Nat
  version : Nat
deriving DecidableEq

/-- Kernel `input_absinfo` record, the fields the backend reads
(`int32`, embedded as `Int`). -/
structure input_absinfo where
  value : Int
  minimum : Int
  maximum : Int
deriving DecidableEq

/-- Kernel `input_event` record as decoded by the backend
(`typ`, `code` are `uint16`; `value` is `int32`; the timestamp is ignored
by the source). -/
structure input_event where
  typ : Nat
  code : Nat
  value : Int
deriving DecidableEq

/-- One logical gamepad: the `Gamepad` record together with its embedded
`nativeGamepad` state.  Go's fixed-size arrays (`keyMap [512]int`,
`absMap [64]int`, `absInfo [64]input_absinfo`, `axes [64]float64`,
`buttons [512]bool`, `hats [4]int`) are total functions on `Nat`;
every access site checks the Go array bound explicitly. -/
structure Gamepad where
  name : List Nat
  sdlID : List Char
  path : String
  fd : Nat
  keyMap : Nat → Int
  absMap : Nat → Int
  absInfo : Nat → input_absinfo
  dropped : Bool
  axes : Nat → ℚ
  buttons : Nat → Bool
  hats : Nat → Nat
  axisCount_ : Nat
  buttonCount_ : Nat
  hatCount_ : Nat

/-- The zero value of a freshly allocated `Gamepad` (Go zero-initializes
every field of a new struct). -/
def zeroGamepad (name : List Nat) (sdlID : List Char) : Gamepad where
  name := name
  sdlID := sdlID
  path := ""
  fd := 0
  keyMap := fun _ => 0
  absMap := fun _ => 0
  absInfo := fun _ => ⟨0, 0, 0⟩
  dropped := false
  axes := fun _ => 0
  buttons := fun _ => false
  hats := fun _ => 0
  axisCount_ := 0
  buttonCount_ := 0
  hatCount_ := 0

/-! ### `nativeGamepad.handleAbsEvent` -/

/-- The hat-mask update switch of `handleAbsEvent` (gamepad_linux.go:359-382):
given the pair axis (`0` for X, `1` for Y), the current mask `m` and the raw
event value, compute the new 4-bit mask. -/
def newHatMask (axis : Nat) (m : Nat) (value : Int) : Nat :=
  if axis = 0 then
    if value < 0 then andn (m ||| hatLeft) hatRight
    else if value > 0 then andn m hatLeft ||| hatRight
    else andn m (hatLeft ||| hatRight)
  else
    if value < 0 then andn (m ||| hatUp) hatDown
    else if value > 0 then andn m hatUp ||| hatDown
    else andn m (hatUp ||| hatDown)

/-- The axis-value normalization of `handleAbsEvent` (gamepad_linux.go:386-391):
`v := float64(value); if r := max - min; r != 0 { v = (v-min)/r; v = v*2-1 }`.
`float64` arithmetic is embedded as exact rational arithmetic. -/
def normalizeAbs (info : input_absinfo) (value : Int) : ℚ :=
  let v : ℚ := (value : ℚ)
  if (info.maximum : ℚ) - (info.minimum : ℚ) ≠ 0 then
    ((v - (info.minimum : ℚ)) / ((info.maximum : ℚ) - (info.minimum : ℚ))) * 2 - 1
  else v

/-- `nativeGamepad.handleAbsEvent` (gamepad_linux.go:353-393).
`none` models a Go array-bounds panic (`code` or the dense index out of
the corresponding array's range). -/
def handleAbsEvent (g : Gamepad) (code : Nat) (value : Int) : Option Gamepad :=
  if code < ABS_CNT then
    let index := g.absMap code
    if ABS_HAT0X ≤ code ∧ code ≤ ABS_HAT3Y then
      -- hats is a [4]int array
      if 0 ≤ index ∧ index < 4 then
        let axis := (code - ABS_HAT0X) % 2
        some { g with hats :=
          Function.update g.hats index.toNat (newHatMask axis (g.hats index.toNat) value) }
      else none
    else
      -- axes is a [64]float64 array
      if 0 ≤ index ∧ index < 64 then
        some { g with axes :=
          Function.update g.axes index.toNat (normalizeAbs (g.absInfo code) value) }
      else none
  else none

/-! ### Public per-device queries (gamepad_linux.go:399-434)

The three polled queries guard their index before touching the fixed-size
state arrays; `none` again models the Go array-bounds panic that would
occur if the guard passed but the index exceeded the array length. -/

/-- `nativeGamepad.axisValue` (gamepad_linux.go:411-416). -/
def axisValue (g : Gamepad) (axis : Int) : Option ℚ :=
  if axis < 0 ∨ (g.axisCount_ : Int) ≤ axis then some 0
  else if axis < 64 then some (g.axes axis.toNat) else none

/-- `nativeGamepad.isButtonPressed` (gamepad_linux.go:418-423). -/
def isButtonPressed (g : Gamepad) (button : Int) : Option Bool :=
  if button < 0 ∨ (g.buttonCount_ : Int) ≤ button then some false
  else if button < 512 then some (g.buttons button.toNat) else none

/-- `nativeGamepad.hatState` (gamepad_linux.go:429-434). -/
def hatState (g : Gamepad) (hat : Int) : Option Nat :=
  if hat < 0 ∨ (g.hatCount_ : Int) ≤ hat then some hatCentered
  else if hat < 4 then some (g.hats hat.toNat) else none

/-- Well-formedness tying the discovery-time counts to the fixed array
sizes; `openGamepad` only ever produces counts within these bounds. -/
def countsWF (g : Gamepad) : Prop :=
  g.axisCount_ ≤ 64 ∧ g.buttonCount_ ≤ 512 ∧ g.hatCount_ ≤ 4

/-! ### `nativeGamepad.pollAbsState` and the per-device event loop -/

/-- `nativeGamepad.pollAbsState` (gamepad_linux.go:340-351).  The
`EVIOCGABS` ioctl is modelled by the oracle `absQuery` (`none` = the ioctl
fails).  The result pairs the state reached with an error flag: on an ioctl
failure the Go function returns the error immediately, keeping all
mutations performed so far (later fold iterations are no-ops).
`pollAbsStep` is one iteration of its loop. -/
def pollAbsStep (absQuery : Nat → Option input_absinfo) (st : Gamepad × Bool)
    (code : Nat) : Gamepad × Bool :=
  if st.2 then st
  else if st.1.absMap code < 0 then st
  else
    match absQuery code with
    | none => (st.1, true)
    | some info =>
      let g1 := { st.1 with absInfo := Function.update st.1.absInfo code info }
      match handleAbsEvent g1 code info.value with
      | some g2 => (g2, false)
      | none => (g1, true)

def pollAbsState (absQuery : Nat → Option input_absinfo) (g : Gamepad) : Gamepad × Bool :=
  (List.range ABS_CNT).foldl (pollAbsStep absQuery) (g, false)

/-- One iteration of the `nativeGamepad.update` read loop
(gamepad_linux.go:309-335), processing a single decoded `input_event`.
`none` models a Go array-bounds panic; note that the error returned by
`pollAbsState` is discarded by the source (gamepad_linux.go:322), so the
re-synchronization keeps whatever state the poll reached. -/
def updateStep (absQuery : Nat → Option input_absinfo) (g : Gamepad)
    (e : input_event) : Option Gamepad :=
  let g :=
    if e.typ = EV_SYN then
      if e.code = SYN_DROPPED then { g with dropped := true }
      else if e.code = SYN_REPORT then
        (pollAbsState absQuery { g with dropped := false }).1
      else g
    else g
  if g.dropped then some g
  else if e.typ = EV_KEY then
    -- idx := g.keyMap[e.code-_BTN_MISC]; e.code is uint16, so this wraps mod 2^16
    let off := (e.code + 65536 - BTN_MISC) % 65536
    if off < 512 then
      let idx := g.keyMap off
      if 0 ≤ idx ∧ idx < 512 then
        some { g with buttons := Function.update g.buttons idx.toNat (e.value != 0) }
      else none
    else none
  else if e.typ = EV_ABS then handleAbsEvent g e.code e.value
  else some g

/-- A sequence of absolute-axis events fed through `handleAbsEvent`. -/
def applyAbsEvents (g : Gamepad) (es : List (Nat × Int)) : Option Gamepad :=
  es.foldlM (fun g e => handleAbsEvent g e.1 e.2) g

/-- The mutual-exclusion property of a hat mask: at most one of
{left (bit 3), right (bit 1)} and at most one of {up (bit 0), down (bit 2)}
is set. -/
def hatOk (m : Nat) : Prop :=
  ¬(m.testBit 3 = true ∧ m.testBit 1 = true) ∧
  ¬(m.testBit 0 = true ∧ m.testBit 2 = true)

/-! ### Device identity synthesizer (gamepad_linux.go:150-165) -/

/-- One lowercase hexadecimal digit, as produced by Go's `%02x` verb. -/
def hexDigit (n : Nat) : Char :=
  if n < 10 then Char.ofNat (48 + n) else Char.ofNat (87 + n)

/-- `%02x` applied to one byte: exactly two lowercase hex characters. -/
def byteHex (b : Nat) : List Char := [hexDigit (b / 16), hexDigit (b % 16)]

/-- The hardware-ID branch of the identifier
(`fmt.Sprintf("%02x%02x0000%02x%02x0000%02x%02x0000%02x%02x0000", ...)`,
gamepad_linux.go:152-156).  `byte(x)` is `x % 256` and `byte(x>>8)` is
`x / 256 % 256`. -/
def sdlIDFromIds (id : input_id) : List Char :=
  byteHex (id.bustype % 256) ++ byteHex (id.bustype / 256 % 256) ++ ['0', '0', '0', '0'] ++
  byteHex (id.vendor % 256) ++ byteHex (id.vendor / 256 % 256) ++ ['0', '0', '0', '0'] ++
  byteHex (id.product % 256) ++ byteHex (id.product / 256 % 256) ++ ['0', '0', '0', '0'] ++
  byteHex (id.version % 256) ++ byteHex (id.version / 256 % 256) ++ ['0', '0', '0', '0']

/-- The name padding of the fallback branch (gamepad_linux.go:158-161):
append zero bytes when the name is shorter than 12 bytes. -/
def padName (bs : List Nat) : List Nat :=
  if bs.length < 12 then bs ++ List.replicate (12 - bs.length) 0 else bs

/-- The name-based fallback branch of the identifier
(`fmt.Sprintf("%02x%02x0000%02x%02x...%02x", ...)` over `bs[0] .. bs[11]`,
gamepad_linux.go:162-164). -/
def sdlIDFromName (bustype : Nat) (name : List Nat) : List Char :=
  byteHex (bustype % 256) ++ byteHex (bustype / 256 % 256) ++ ['0', '0', '0', '0'] ++
  (((padName name).take 12).map byteHex).flatten

/-- The identifier synthesizer: branch selection of gamepad_linux.go:151-165. -/
def synthesizeSDLID (id : input_id) (name : List Nat) : List Char :=
  if id.vendor ≠ 0 ∧ id.product ≠ 0 ∧ id.version ≠ 0 then sdlIDFromIds id
  else sdlIDFromName id.bustype name

/-- Written from the spec's words, for comparison with the source: one
16-bit field "rendered as 4 hex digits" in little-endian byte order. -/
def specHex4LE (x : Nat) : List Char := byteHex (x % 256) ++ byteHex (x / 256 % 256)

/-- Written from the spec's words, for comparison with the source: the
documented identifier layout — "encode bus/vendor/product/version as four
little-endian 16-bit fields, each rendered as 4 hex digits, separated by
fixed zero-padding". -/
def specIDLayout (bus vendor product version : Nat) : List Char :=
  specHex4LE bus ++ ['0', '0', '0', '0'] ++
  specHex4LE vendor ++ ['0', '0', '0', '0'] ++
  specHex4LE product ++ ['0', '0', '0', '0'] ++
  specHex4LE version ++ ['0', '0', '0', '0']

/-- The lowercase-hexadecimal alphabet. -/
def isHexLower (c : Char) : Prop :=
  ('0' ≤ c ∧ c ≤ '9') ∨ ('a' ≤ c ∧ c ≤ 'f')

instance (c : Char) : Decidable (isHexLower c) := by
  unfold isHexLower
  infer_instance

/-- Written from the spec's words, for comparison with the source:
"pad/truncate the name to exactly 12 bytes". -/
def specPad12 (bs : List Nat) : List Nat := (bs ++ List.replicate 12 0).take 12

/-- Written from the spec's words, for comparison with the source: the
fallback layout — "encode bus type (4 hex digits) followed by the 12 name
bytes (24 hex digits)", the bus type in the same little-endian-plus-
zero-padding form as the hardware-ID branch. -/
def specNameLayout (bus : Nat) (nameBytes : List Nat) : List Char :=
  specHex4LE bus ++ ['0', '0', '0', '0'] ++ (nameBytes.map byteHex).flatten

/-! ### `nativeGamepads.openGamepad` (gamepad_linux.go:93-212) -/

/-- Outcome of an ioctl-level open attempt (`unix.Open`): `EACCES` and
`ENOENT` are silently skipped by the source, any other failure is fatal. -/
inductive OpenResult where
  | ok (fd : Nat)
  | eacces
  | enoent
  | fatal
deriving DecidableEq

/-- The system-call environment one `openGamepad` call runs against.
Each capability/identity query returns `none` exactly when the
corresponding ioctl fails; `absQuery` is the `EVIOCGABS` oracle, shared
with `pollAbsState`. A failed `EVIOCGNAME` is modelled by `devName = none`
(the source then keeps the name `"Unknown"`). -/
structure Env where
  openResult : OpenResult
  evBits : Option (Nat → Bool)
  keyBits : Option (Nat → Bool)
  absBits : Option (Nat → Bool)
  devID : Option input_id
  devName : Option (List Nat)
  absQuery : Nat → Option input_absinfo

/-- The observable outcome of one `openGamepad` call: the registry when
the call returns, whether an `unix.Open` call was issued, whether the file
descriptor opened by this call was closed again before returning
(explicitly or by the deferred close on the error path), and the error
returned (`none` = `nil`). -/
structure OpenOutcome where
  registry : List Gamepad
  opened : Bool
  closed : Bool
  err : Option String

/-- The byte content of the Go string literal `"Unknown"`. -/
def unknownName : List Nat := [85, 110, 107, 110, 111, 119, 110]

/-- State of the key-code mapping loop (gamepad_linux.go:177-183):
the `keyMap` array under construction plus the local `buttonCount`. -/
structure KeySt where
  keyMap : Nat → Int
  buttonCount : Nat

/-- One iteration of the key-code mapping loop. -/
def keyStep (keyBits : Nat → Bool) (st : KeySt) (code : Nat) : KeySt :=
  if keyBits code then
    { keyMap := Function.update st.keyMap (code - BTN_MISC) (st.buttonCount : Int),
      buttonCount := st.buttonCount + 1 }
  else st

/-- The key-code mapping loop, `for code := _BTN_MISC; code < _KEY_CNT;
code++` (gamepad_linux.go:177-183), starting from the gamepad's current
(zero-valued) `keyMap`. -/
def buildKeyMap (keyBits : Nat → Bool) (init : Nat → Int) : KeySt :=
  (List.range' BTN_MISC (KEY_CNT - BTN_MISC)).foldl (keyStep keyBits) ⟨init, 0⟩

/-- State of the absolute-axis mapping loop (gamepad_linux.go:184-201):
the arrays under construction, the two local counters, the pending
`code++` skip from the hat case, and whether an `EVIOCGABS` ioctl failed
(in which case the source returns immediately; later iterations of the
fold are no-ops, so the fold result is the state at the moment of the
error). -/
structure AbsSt where
  absMap : Nat → Int
  absInfo : Nat → input_absinfo
  axisCount : Nat
  hatCount : Nat
  skip : Bool
  err : Bool

/-- One iteration of the absolute-axis mapping loop. -/
def absStep (absBits : Nat → Bool) (absQuery : Nat → Option input_absinfo)
    (st : AbsSt) (code : Nat) : AbsSt :=
  if st.err then st
  else if st.skip then { st with skip := false }
  else
    let st := { st with absMap := Function.update st.absMap code (-1) }
    if absBits code then
      if ABS_HAT0X ≤ code ∧ code ≤ ABS_HAT3Y then
        { st with
          absMap := Function.update st.absMap code (st.hatCount : Int),
          hatCount := st.hatCount + 1,
          skip := true }
      else
        match absQuery code with
        | none => { st with err := true }
        | some info =>
          { st with
            absInfo := Function.update st.absInfo code info,
            absMap := Function.update st.absMap code (st.axisCount : Int),
            axisCount := st.axisCount + 1 }
    else st

/-- The absolute-axis mapping loop, `for code := 0; code < _ABS_CNT;
code++` (gamepad_linux.go:184-201). -/
def buildAbsMaps (absBits : Nat → Bool) (absQuery : Nat → Option input_absinfo)
    (init : AbsSt) : AbsSt :=
  (List.range ABS_CNT).foldl (absStep absBits absQuery) init

/-- Modelled from the spec: the gamepad collection's find-first-matching
operation (`gamepads.find`, declared in the cross-platform `gamepad.go`
outside the excerpted source; the spec describes the registry as "an
insertion-order collection of LogicalGamepad, supporting:
find-first-matching, add-new (returns newly created entry),
remove-first-matching"). -/
def gamepadsFind (l : List Gamepad) (p : Gamepad → Bool) : Option Gamepad :=
  l.find? p

/-- `nativeGamepads.openGamepad` (gamepad_linux.go:93-212).  The registry
is a list in insertion order; `gamepads.add` (modelled from the spec, see
`gamepadsFind`) appends a zero-valued entry, which the source then mutates
in place — modelled here by appending the entry's current state at every
return point. -/
def openGamepad (env : Env) (registry : List Gamepad) (path : String) : OpenOutcome :=
  if (gamepadsFind registry (fun gp => gp.path == path)).isSome then
    ⟨registry, false, false, none⟩
  else
    match env.openResult with
    | .eacces => ⟨registry, true, false, none⟩
    | .enoent => ⟨registry, true, false, none⟩
    | .fatal => ⟨registry, true, false, some "open"⟩
    | .ok fd =>
      match env.evBits with
      | none => ⟨registry, true, true, some "evBits"⟩
      | some evBits =>
      match env.keyBits with
      | none => ⟨registry, true, true, some "keyBits"⟩
      | some keyBits =>
      match env.absBits with
      | none => ⟨registry, true, true, some "absBits"⟩
      | some absBits =>
      match env.devID with
      | none => ⟨registry, true, true, some "id"⟩
      | some id =>
      if evBits EV_KEY = false then ⟨registry, true, true, none⟩
      else if evBits EV_ABS = false then ⟨registry, true, true, none⟩
      else
        let name := match env.devName with
          | some bs => bs
          | none => unknownName
        let sdlID := synthesizeSDLID id name
        -- gp := gamepads.add(name, sdlID); gp.path = path; gp.fd = fd
        let gp0 := { zeroGamepad name sdlID with path := path, fd := fd }
        let key := buildKeyMap keyBits gp0.keyMap
        let ab := buildAbsMaps absBits env.absQuery
          ⟨gp0.absMap, gp0.absInfo, 0, 0, false, false⟩
        let gp1 := { gp0 with
          keyMap := key.keyMap,
          absMap := ab.absMap,
          absInfo := ab.absInfo }
        if ab.err then
          -- ioctl failed mid-loop: the counts were never assigned, the
          -- deferred close runs, and the added entry stays registered
          ⟨registry ++ [gp1], true, true, some "absinfo"⟩
        else
          let gp2 := { gp1 with
            axisCount_ := ab.axisCount,
            buttonCount_ := key.buttonCount,
            hatCount_ := ab.hatCount }
          let pr := pollAbsState env.absQuery gp2
          if pr.2 then ⟨registry ++ [pr.1], true, true, some "pollAbsState"⟩
          else ⟨registry ++ [pr.1], true, false, none⟩

/-! ### Rank functions characterizing the dense index assignment -/

/-- The directional-pad code range `[_ABS_HAT0X, _ABS_HAT3Y]`. -/
def hatRange (c : Nat) : Prop := ABS_HAT0X ≤ c ∧ c ≤ ABS_HAT3Y

instance (c : Nat) : Decidable (hatRange c) := by unfold hatRange; infer_instance

/-- Number of present key codes in `[_BTN_MISC, c)`: the dense button
index the loop assigns to a present code `c`. -/
def rankKey (bits : Nat → Bool) (c : Nat) : Nat :=
  ((Finset.range c).filter (fun c' => BTN_MISC ≤ c' ∧ bits c' = true)).card

/-- Number of present non-hat absolute codes below `c`: the dense axis
index the loop assigns to a present non-hat code `c`. -/
def rankAxis (bits : Nat → Bool) (c : Nat) : Nat :=
  ((Finset.range c).filter (fun c' => bits c' = true ∧ ¬ hatRange c')).card

/-- Number of present hat X codes below `c`: the dense hat index the loop
assigns to a present hat X code `c`. -/
def rankHat (bits : Nat → Bool) (c : Nat) : Nat :=
  ((Finset.range c).filter
    (fun c' => bits c' = true ∧ hatRange c' ∧ (c' - ABS_HAT0X) % 2 = 0)).card

/-- Hat codes come in aligned (X, Y) pairs: a present Y code's X partner
is present too.  (This holds for every real directional pad; without it
the loop's `code++` skip can consume a code of a different pad.) -/
def hatPaired (bits : Nat → Bool) : Prop :=
  ∀ c, hatRange c → (c - ABS_HAT0X) % 2 = 1 → bits c = true → bits (c - 1) = true

/-- The zero-valued initial state of the absolute-axis mapping loop, as a
fresh `Gamepad` provides it. -/
def absInit : AbsSt := ⟨fun _ => 0, fun _ => ⟨0, 0, 0⟩, 0, 0, false, false⟩

/-- A capability bitmap marking exactly `_ABS_HAT0Y` (17) and `_ABS_HAT1X`
(18) present: a hat Y code without its X partner, followed by the next
pad's X code. -/
def bitsYonly : Nat → Bool := fun c => c == 17 || c == 18

/-- A calibration oracle that always succeeds. -/
def qZero : Nat → Option input_absinfo := fun _ => some ⟨0, 0, 1⟩

/-- A well-paired capability bitmap: one axis (code 0) and the full hat-0
pair (codes 16 and 17). -/
def bitsW : Nat → Bool := fun c => c == 0 || c == 16 || c == 17

/-- Invariant of the absolute-axis mapping loop after processing codes
`0, ..., n-1` under a paired bitmap and a total calibration oracle: no
error, the skip flag is pending exactly after a present hat X code, the
two counters equal the ranks at `n`, and each processed entry of `absMap`
is characterized (present non-hat codes hold their axis rank, present hat
X codes their hat rank, absent processed codes hold `-1`, skipped hat Y
codes still hold the initial `0`, unprocessed codes the initial `0`). -/
def AbsInv (bits : Nat → Bool) (n : Nat) (st : AbsSt) : Prop :=
  st.err = false ∧
  (st.skip = true ↔
    (ABS_HAT0X + 1 ≤ n ∧ n ≤ ABS_HAT3Y ∧ (n - ABS_HAT0X) % 2 = 1 ∧ bits (n - 1) = true)) ∧
  st.hatCount = rankHat bits n ∧
  st.axisCount = rankAxis bits n ∧
  (∀ c, c < n → ¬hatRange c → bits c = true → st.absMap c = (rankAxis bits c : Int)) ∧
  (∀ c, c < n → ¬hatRange c → bits c = false → st.absMap c = -1) ∧
  (∀ c, c < n → hatRange c → (c - ABS_HAT0X) % 2 = 0 → bits c = true →
    st.absMap c = (rankHat bits c : Int)) ∧
  (∀ c, c < n → hatRange c → (c - ABS_HAT0X) % 2 = 0 → bits c = false →
    st.absMap c = -1) ∧
  (∀ c, c < n → hatRange c → (c - ABS_HAT0X) % 2 = 1 → bits (c - 1) = true →
    st.absMap c = 0) ∧
  (∀ c, c < n → hatRange c → (c - ABS_HAT0X) % 2 = 1 → bits (c - 1) = false →
    st.absMap c = -1) ∧
  (∀ c, n ≤ c → st.absMap c = 0)

/-- Concrete gamepad state used to exhibit the degenerate-calibration
behaviour of `handleAbsEvent`: hardware code 5 is mapped to axis 0, its
calibration has `minimum = maximum = 4`, and axis 0 currently holds `1/2`. -/
def gDegenerate : Gamepad :=
  { zeroGamepad [] [] with
    absMap := fun c => if c = 5 then 0 else -1,
    absInfo := fun _ => ⟨0, 4, 4⟩,
    axes := fun _ => 1/2 }

/-- Concrete gamepad state with code 5 mapped to axis 0 and calibration
`[-4, 4]`, used to instantiate the normalization theorem. -/
def gCalibrated : Gamepad :=
  { zeroGamepad [] [] with
    absMap := fun c => if c = 5 then 0 else -1,
    absInfo := fun _ => ⟨0, -4, 4⟩ }

/-- Concrete gamepad state whose hat-0 X and Y codes are mapped to hat 0,
used to instantiate the hat-exclusivity theorem. -/
def gHat : Gamepad :=
  { zeroGamepad [] [] with
    absMap := fun c => if 16 ≤ c ∧ c ≤ 17 then 0 else -1 }

/-- Concrete gamepad state with the dropped flag set. -/
def gDropped : Gamepad := { zeroGamepad [] [] with dropped := true }

/-- A one-entry registry holding a device registered at
`/dev/input/event0`. -/
def reg1 : List Gamepad := [{ zeroGamepad [] [] with path := "/dev/input/event0" }]

/-- Environment whose open call fails fatally; its queries are never
reached. -/
def envEmpty : Env :=
  ⟨OpenResult.fatal, none, none, none, none, none, fun _ => none⟩

/-- Environment in which the device opens but the event-type-bitmap ioctl
fails. -/
def envEvFail : Env :=
  ⟨OpenResult.ok 3, none, none, none, none, none, fun _ => none⟩

/-- Environment for a device supporting key and absolute events with one
absolute axis (code 0) whose calibration ioctl fails. -/
def envCalibFail : Env :=
  ⟨OpenResult.ok 3,
    some (fun c => c == 1 || c == 3),
    some (fun _ => false),
    some (fun c => c == 0),
    some ⟨3, 1, 1, 1⟩,
    none,
    fun _ => none⟩

/-- Environment for a device whose event-type bitmap has only key events
(no absolute axes). -/
def envKeyOnly : Env :=
  ⟨OpenResult.ok 3,
    some (fun c => c == 1),
    some (fun _ => false),
    some (fun _ => false),
    some ⟨3, 1, 1, 1⟩,
    none,
    fun _ => none⟩

/-- Environment for a device whose event-type bitmap has only absolute
axes (no key events). -/
def envAbsOnly : Env :=
  ⟨OpenResult.ok 3,
    some (fun c => c == 3),
    some (fun _ => false),
    some (fun _ => false),
    some ⟨3, 1, 1, 1⟩,
    none,
    fun _ => none⟩

/-!
## Theorems
-/

theorem testBit_andn (x y : Nat) (i : Nat) :
    (andn x y).testBit i = (x.testBit i && !(y.testBit i)) := by
  simp only [andn, Nat.testBit_xor, Nat.testBit_and]
  cases x.testBit i <;> cases y.testBit i <;> rfl

theorem testBitsOfHatConsts :
    Nat.testBit 1 0 = true ∧ Nat.testBit 1 1 = false ∧
    Nat.testBit 1 2 = false ∧ Nat.testBit 1 3 = false ∧
    Nat.testBit 2 0 = false ∧ Nat.testBit 2 1 = true ∧
    Nat.testBit 2 2 = false ∧ Nat.testBit 2 3 = false ∧
    Nat.testBit 4 0 = false ∧ Nat.testBit 4 1 = false ∧
    Nat.testBit 4 2 = true ∧ Nat.testBit 4 3 = false ∧
    Nat.testBit 8 0 = false ∧ Nat.testBit 8 1 = false ∧
    Nat.testBit 8 2 = false ∧ Nat.testBit 8 3 = true := by decide

/-- Characterization of `handleAbsEvent` on a mapped non-hat code. -/
theorem handleAbsEvent_nonhat (g : Gamepad) (code : Nat) (value : Int)
    (hcode : code < ABS_CNT) (hhat : ¬(ABS_HAT0X ≤ code ∧ code ≤ ABS_HAT3Y))
    (hidx : 0 ≤ g.absMap code ∧ g.absMap code < 64) :
    handleAbsEvent g code value =
      some
        { g with
          axes := Function.update g.axes (g.absMap code).toNat
            (normalizeAbs (g.absInfo code) value) } := by
  simp only [handleAbsEvent]
  rw [if_pos hcode, if_neg hhat, if_pos hidx]

/-- Characterization of `handleAbsEvent` on a hat code with a valid hat
index. -/
theorem handleAbsEvent_hat (g : Gamepad) (code : Nat) (value : Int)
    (hhat : ABS_HAT0X ≤ code ∧ code ≤ ABS_HAT3Y)
    (hidx : 0 ≤ g.absMap code ∧ g.absMap code < 4) :
    handleAbsEvent g code value =
      some
        { g with
          hats := Function.update g.hats (g.absMap code).toNat
            (newHatMask ((code - ABS_HAT0X) % 2) (g.hats (g.absMap code).toNat) value) } := by
  have hcode : code < ABS_CNT := by
    have := hhat.2
    unfold ABS_HAT3Y at this
    unfold ABS_CNT
    omega
  simp only [handleAbsEvent]
  rw [if_pos hcode, if_pos hhat, if_pos hidx]

/-- `normalizeAbs` with a non-degenerate range is the linear rescaling. -/
theorem normalizeAbs_of_lt (info : input_absinfo) (value : Int)
    (h : info.minimum < info.maximum) :
    normalizeAbs info value =
      (((value : ℚ) - (info.minimum : ℚ)) /
        ((info.maximum : ℚ) - (info.minimum : ℚ))) * 2 - 1 := by
  have hr : (info.maximum : ℚ) - (info.minimum : ℚ) ≠ 0 := by
    have : (info.minimum : ℚ) < (info.maximum : ℚ) := by exact_mod_cast h
    exact sub_ne_zero_of_ne (ne_of_gt this)
  simp only [normalizeAbs]
  rw [if_pos hr]

/-- `normalizeAbs` with a degenerate range returns the raw value. -/
theorem normalizeAbs_of_eq (info : input_absinfo) (value : Int)
    (h : info.minimum = info.maximum) :
    normalizeAbs info value = (value : ℚ) := by
  have hr : ¬((info.maximum : ℚ) - (info.minimum : ℚ) ≠ 0) := by
    rw [h]; simp
  simp only [normalizeAbs]
  rw [if_neg hr]

/-- `handleAbsEvent` panics (returns `none`) on a hat code whose mapped
index is outside the `hats` array. -/
theorem handleAbsEvent_hat_none (g : Gamepad) (code : Nat) (value : Int)
    (hhat : ABS_HAT0X ≤ code ∧ code ≤ ABS_HAT3Y)
    (hidx : ¬(0 ≤ g.absMap code ∧ g.absMap code < 4)) :
    handleAbsEvent g code value = none := by
  have hcode : code < ABS_CNT := by
    have := hhat.2
    unfold ABS_HAT3Y at this
    unfold ABS_CNT
    omega
  simp only [handleAbsEvent]
  rw [if_pos hcode, if_pos hhat, if_neg hidx]

/-- For a non-zero pair axis, `newHatMask` takes its `else` (Y-pair)
branch, which is the same for every non-zero axis value. -/
theorem newHatMask_ne_zero (axis m : Nat) (value : Int) (ha : axis ≠ 0) :
    newHatMask axis m value = newHatMask 1 m value := by
  unfold newHatMask
  rw [if_neg ha, if_neg (by omega : (1 : Nat) ≠ 0)]

/-- Semantics of the X-pair hat update: negative sets left (bit 3) and
clears right (bit 1), positive the mirror, zero clears both; the Y pair
(bits 0 and 2) is untouched. -/
theorem newHatMask_xAxis (m : Nat) (value : Int) :
    (value < 0 → (newHatMask 0 m value).testBit 3 = true ∧
      (newHatMask 0 m value).testBit 1 = false) ∧
    (0 < value → (newHatMask 0 m value).testBit 3 = false ∧
      (newHatMask 0 m value).testBit 1 = true) ∧
    (value = 0 → (newHatMask 0 m value).testBit 3 = false ∧
      (newHatMask 0 m value).testBit 1 = false) ∧
    (newHatMask 0 m value).testBit 0 = m.testBit 0 ∧
    (newHatMask 0 m value).testBit 2 = m.testBit 2 := by
  obtain ⟨e10, e11, e12, e13, e20, e21, e22, e23,
    e40, e41, e42, e43, e80, e81, e82, e83⟩ := testBitsOfHatConsts
  unfold newHatMask hatLeft hatRight
  rw [if_pos rfl]
  by_cases hv : value < 0
  · rw [if_pos hv]
    refine ⟨fun _ => ⟨?_, ?_⟩, fun hp => absurd hv (by omega),
      fun h0 => absurd hv (by omega), ?_, ?_⟩ <;>
      simp only [testBit_andn, Nat.testBit_or, e10, e11, e12, e13, e20, e21, e22, e23,
        e80, e81, e82, e83, Bool.or_true, Bool.or_false, Bool.not_true, Bool.not_false,
        Bool.and_true, Bool.and_false]
  · rw [if_neg hv]
    by_cases hp : value > 0
    · rw [if_pos hp]
      refine ⟨fun hv' => absurd hv' hv, fun _ => ⟨?_, ?_⟩,
        fun h0 => absurd h0 (by omega), ?_, ?_⟩ <;>
        simp only [testBit_andn, Nat.testBit_or, e10, e11, e12, e13, e20, e21, e22, e23,
          e80, e81, e82, e83, Bool.or_true, Bool.or_false, Bool.not_true, Bool.not_false,
          Bool.and_true, Bool.and_false, Bool.false_or, Bool.or_self]
    · rw [if_neg hp]
      refine ⟨fun hv' => absurd hv' hv, fun hp' => absurd hp' hp,
        fun _ => ⟨?_, ?_⟩, ?_, ?_⟩ <;>
        simp only [testBit_andn, Nat.testBit_or, e10, e11, e12, e13, e20, e21, e22, e23,
          e80, e81, e82, e83, Bool.or_true, Bool.or_false, Bool.not_true, Bool.not_false,
          Bool.and_true, Bool.and_false]

/-- Semantics of the Y-pair hat update: negative sets up (bit 0) and
clears down (bit 2), positive the mirror, zero clears both; the X pair
(bits 3 and 1) is untouched. -/
theorem newHatMask_yAxis (m : Nat) (value : Int) :
    (value < 0 → (newHatMask 1 m value).testBit 0 = true ∧
      (newHatMask 1 m value).testBit 2 = false) ∧
    (0 < value → (newHatMask 1 m value).testBit 0 = false ∧
      (newHatMask 1 m value).testBit 2 = true) ∧
    (value = 0 → (newHatMask 1 m value).testBit 0 = false ∧
      (newHatMask 1 m value).testBit 2 = false) ∧
    (newHatMask 1 m value).testBit 3 = m.testBit 3 ∧
    (newHatMask 1 m value).testBit 1 = m.testBit 1 := by
  obtain ⟨e10, e11, e12, e13, e20, e21, e22, e23,
    e40, e41, e42, e43, e80, e81, e82, e83⟩ := testBitsOfHatConsts
  unfold newHatMask hatUp hatDown
  rw [if_neg (by omega : (1 : Nat) ≠ 0)]
  by_cases hv : value < 0
  · rw [if_pos hv]
    refine ⟨fun _ => ⟨?_, ?_⟩, fun hp => absurd hv (by omega),
      fun h0 => absurd hv (by omega), ?_, ?_⟩ <;>
      simp only [testBit_andn, Nat.testBit_or, e10, e11, e12, e13, e40, e41, e42, e43,
        Bool.or_true, Bool.or_false, Bool.not_true, Bool.not_false,
        Bool.and_true, Bool.and_false]
  · rw [if_neg hv]
    by_cases hp : value > 0
    · rw [if_pos hp]
      refine ⟨fun hv' => absurd hv' hv, fun _ => ⟨?_, ?_⟩,
        fun h0 => absurd h0 (by omega), ?_, ?_⟩ <;>
        simp only [testBit_andn, Nat.testBit_or, e10, e11, e12, e13, e40, e41, e42, e43,
          Bool.or_true, Bool.or_false, Bool.not_true, Bool.not_false,
          Bool.and_true, Bool.and_false, Bool.false_or, Bool.or_self]
    · rw [if_neg hp]
      refine ⟨fun hv' => absurd hv' hv, fun hp' => absurd hp' hp,
        fun _ => ⟨?_, ?_⟩, ?_, ?_⟩ <;>
        simp only [testBit_andn, Nat.testBit_or, e10, e11, e12, e13, e40, e41, e42, e43,
          Bool.or_true, Bool.or_false, Bool.not_true, Bool.not_false,
          Bool.and_true, Bool.and_false]

/-- The hat-mask update preserves the per-pair mutual exclusion. -/
theorem hatOk_newHatMask (axis m : Nat) (value : Int) (h : hatOk m) :
    hatOk (newHatMask axis m value) := by
  obtain ⟨h1, h2⟩ := h
  by_cases ha : axis = 0
  · subst ha
    obtain ⟨hneg, hpos, hzero, hb0, hb2⟩ := newHatMask_xAxis m value
    rcases lt_trichotomy value 0 with hv | hv | hv
    · obtain ⟨b3, b1⟩ := hneg hv
      exact ⟨fun hc => by rw [b1] at hc; exact absurd hc.2 (by simp),
        fun hc => h2 ⟨by rw [← hb0]; exact hc.1, by rw [← hb2]; exact hc.2⟩⟩
    · obtain ⟨b3, b1⟩ := hzero hv
      exact ⟨fun hc => by rw [b3] at hc; exact absurd hc.1 (by simp),
        fun hc => h2 ⟨by rw [← hb0]; exact hc.1, by rw [← hb2]; exact hc.2⟩⟩
    · obtain ⟨b3, b1⟩ := hpos hv
      exact ⟨fun hc => by rw [b3] at hc; exact absurd hc.1 (by simp),
        fun hc => h2 ⟨by rw [← hb0]; exact hc.1, by rw [← hb2]; exact hc.2⟩⟩
  · rw [newHatMask_ne_zero axis m value ha]
    obtain ⟨hneg, hpos, hzero, hb3, hb1⟩ := newHatMask_yAxis m value
    rcases lt_trichotomy value 0 with hv | hv | hv
    · obtain ⟨b0, b2⟩ := hneg hv
      exact ⟨fun hc => h1 ⟨by rw [← hb3]; exact hc.1, by rw [← hb1]; exact hc.2⟩,
        fun hc => by rw [b2] at hc; exact absurd hc.2 (by simp)⟩
    · obtain ⟨b0, b2⟩ := hzero hv
      exact ⟨fun hc => h1 ⟨by rw [← hb3]; exact hc.1, by rw [← hb1]; exact hc.2⟩,
        fun hc => by rw [b0] at hc; exact absurd hc.1 (by simp)⟩
    · obtain ⟨b0, b2⟩ := hpos hv
      exact ⟨fun hc => h1 ⟨by rw [← hb3]; exact hc.1, by rw [← hb1]; exact hc.2⟩,
        fun hc => by rw [b0] at hc; exact absurd hc.1 (by simp)⟩

/-- A successful `handleAbsEvent` preserves per-hat mutual exclusion
(for any code: the non-hat branch does not touch `hats` at all). -/
theorem hatOk_handleAbsEvent (g g' : Gamepad) (code : Nat) (value : Int)
    (h : ∀ i, hatOk (g.hats i)) (hs : handleAbsEvent g code value = some g') :
    ∀ i, hatOk (g'.hats i) := by
  simp only [handleAbsEvent] at hs
  split at hs
  · split at hs
    · split at hs
      · obtain rfl := Option.some.inj hs
        intro i
        by_cases hi : i = (g.absMap code).toNat
        · subst hi
          simp only [Function.update_same]
          exact hatOk_newHatMask _ _ _ (h _)
        · simp only [Function.update_noteq hi]
          exact h i
      · exact absurd hs (by simp)
    · split at hs
      · obtain rfl := Option.some.inj hs
        exact h
      · exact absurd hs (by simp)
  · exact absurd hs (by simp)

/-- Per-hat mutual exclusion is preserved by any event sequence fed
through `handleAbsEvent`. -/
theorem hatOk_applyAbsEvents (es : List (Nat × Int)) :
    ∀ g g' : Gamepad, (∀ i, hatOk (g.hats i)) →
      applyAbsEvents g es = some g' → ∀ i, hatOk (g'.hats i) := by
  induction es with
  | nil =>
    intro g g' h happ
    simp only [applyAbsEvents, List.foldlM_nil, Option.pure_def, Option.some.injEq] at happ
    subst happ
    exact h
  | cons e es ih =>
    intro g g' h happ
    simp only [applyAbsEvents, List.foldlM_cons] at happ
    cases hmid : handleAbsEvent g e.1 e.2 with
    | none => rw [hmid] at happ; exact absurd happ (by simp)
    | some gm =>
      rw [hmid] at happ
      exact ih gm g' (hatOk_handleAbsEvent g gm e.1 e.2 h hmid) happ

/-- C1 (corrected).  For an absolute-axis event on a mapped non-hat code:
if the stored calibration has `minimum < maximum`, `handleAbsEvent` sets
the axis to the linear rescaling of the raw value from
`[minimum, maximum]` to `[-1, 1]` (`value = minimum` gives exactly `-1`,
`value = maximum` exactly `1`, and the exact midpoint exactly `0`); but if
`minimum = maximum`, the axis is set to the raw value — it is NOT left at
its previous value as the claim states (see `claim_C1_counterexample`). -/
theorem claim_C1 (g : Gamepad) (code : Nat) (value : Int)
    (hcode : code < ABS_CNT) (hhat : ¬(ABS_HAT0X ≤ code ∧ code ≤ ABS_HAT3Y))
    (hidx : 0 ≤ g.absMap code ∧ g.absMap code < 64) :
    ((g.absInfo code).minimum < (g.absInfo code).maximum →
      handleAbsEvent g code value =
        some
          { g with
            axes := Function.update g.axes (g.absMap code).toNat
              ((((value : ℚ) - ((g.absInfo code).minimum : ℚ)) /
                (((g.absInfo code).maximum : ℚ) - ((g.absInfo code).minimum : ℚ))) * 2 - 1) } ∧
      (value = (g.absInfo code).minimum →
        (handleAbsEvent g code value).map (fun g' => g'.axes (g.absMap code).toNat) =
          some (-1)) ∧
      (value = (g.absInfo code).maximum →
        (handleAbsEvent g code value).map (fun g' => g'.axes (g.absMap code).toNat) =
          some 1) ∧
      (2 * value = (g.absInfo code).minimum + (g.absInfo code).maximum →
        (handleAbsEvent g code value).map (fun g' => g'.axes (g.absMap code).toNat) =
          some 0)) ∧
    ((g.absInfo code).minimum = (g.absInfo code).maximum →
      handleAbsEvent g code value =
        some
          { g with
            axes := Function.update g.axes (g.absMap code).toNat (value : ℚ) }) := by
  have hchar := handleAbsEvent_nonhat g code value hcode hhat hidx
  constructor
  · intro hlt
    have hr : ((g.absInfo code).maximum : ℚ) - ((g.absInfo code).minimum : ℚ) ≠ 0 := by
      have : ((g.absInfo code).minimum : ℚ) < ((g.absInfo code).maximum : ℚ) := by
        exact_mod_cast hlt
      exact sub_ne_zero_of_ne (ne_of_gt this)
    have heq := normalizeAbs_of_lt (g.absInfo code) value hlt
    refine ⟨by rw [hchar, heq], fun hv => ?_, fun hv => ?_, fun hv => ?_⟩
    · rw [hchar]
      simp only [Option.map_some', Option.some.injEq, Function.update_same]
      rw [heq, hv]
      rw [sub_self, zero_div]
      norm_num
    · rw [hchar]
      simp only [Option.map_some', Option.some.injEq, Function.update_same]
      rw [heq, hv]
      rw [div_self hr]
      norm_num
    · rw [hchar]
      simp only [Option.map_some', Option.some.injEq, Function.update_same]
      rw [heq]
      have hmid : 2 * (value : ℚ) =
          ((g.absInfo code).minimum : ℚ) + ((g.absInfo code).maximum : ℚ) := by
        exact_mod_cast hv
      field_simp
      linarith
  · intro hmm
    rw [hchar, normalizeAbs_of_eq (g.absInfo code) value hmm]

/-- C1 counterexample: with degenerate calibration `minimum = maximum = 4`
and previous axis value `1/2`, an event with raw value 9 sets the axis to
`9`, so the axis is not left unchanged as the claim states. -/
theorem claim_C1_counterexample :
    (gDegenerate.absInfo 5).minimum = (gDegenerate.absInfo 5).maximum ∧
    gDegenerate.axes 0 = 1/2 ∧
    (handleAbsEvent gDegenerate 5 9).map (fun g' => g'.axes 0) = some 9 ∧
    (9 : ℚ) ≠ 1/2 := by
  refine ⟨rfl, rfl, ?_, by norm_num⟩
  rw [handleAbsEvent_nonhat gDegenerate 5 9 (by decide) (by decide) (by decide),
    normalizeAbs_of_eq _ _ rfl]
  simp only [Option.map_some', Option.some.injEq]
  rw [show (gDegenerate.absMap 5).toNat = 0 from rfl, Function.update_same]
  norm_num

/-- Witness for `claim_C1` at a concrete calibrated input: raw value 4 on
calibration `[-4, 4]` normalizes to exactly `1`. -/
theorem claim_C1_witness :
    (handleAbsEvent gCalibrated 5 4).map (fun g' => g'.axes 0) = some 1 := by
  have h := claim_C1 gCalibrated 5 4 (by decide) (by decide) (by decide)
  exact (h.1 (by decide)).2.2.1 (by decide)

/-- C7 (confirmed).  Directional-pad events keep each hat mask mutually
exclusive within each axis pair: on the X pair, a negative value sets
left (bit 3) and clears right (bit 1), a positive value the mirror, zero
clears both, with the Y-pair bits untouched (and symmetrically for the Y
pair, up = bit 0 / down = bit 2); and over any event sequence, a state
whose hats all satisfy `hatOk` (at most one of left/right and one of
up/down set — in particular the all-centered initial state) keeps
satisfying it. -/
theorem claim_C7 (g : Gamepad) :
    (∀ code value g', ABS_HAT0X ≤ code ∧ code ≤ ABS_HAT3Y →
      handleAbsEvent g code value = some g' →
      (((code - ABS_HAT0X) % 2 = 0 →
        (value < 0 → (g'.hats (g.absMap code).toNat).testBit 3 = true ∧
          (g'.hats (g.absMap code).toNat).testBit 1 = false) ∧
        (0 < value → (g'.hats (g.absMap code).toNat).testBit 3 = false ∧
          (g'.hats (g.absMap code).toNat).testBit 1 = true) ∧
        (value = 0 → (g'.hats (g.absMap code).toNat).testBit 3 = false ∧
          (g'.hats (g.absMap code).toNat).testBit 1 = false) ∧
        (g'.hats (g.absMap code).toNat).testBit 0 =
          (g.hats (g.absMap code).toNat).testBit 0 ∧
        (g'.hats (g.absMap code).toNat).testBit 2 =
          (g.hats (g.absMap code).toNat).testBit 2) ∧
       ((code - ABS_HAT0X) % 2 = 1 →
        (value < 0 → (g'.hats (g.absMap code).toNat).testBit 0 = true ∧
          (g'.hats (g.absMap code).toNat).testBit 2 = false) ∧
        (0 < value → (g'.hats (g.absMap code).toNat).testBit 0 = false ∧
          (g'.hats (g.absMap code).toNat).testBit 2 = true) ∧
        (value = 0 → (g'.hats (g.absMap code).toNat).testBit 0 = false ∧
          (g'.hats (g.absMap code).toNat).testBit 2 = false) ∧
        (g'.hats (g.absMap code).toNat).testBit 3 =
          (g.hats (g.absMap code).toNat).testBit 3 ∧
        (g'.hats (g.absMap code).toNat).testBit 1 =
          (g.hats (g.absMap code).toNat).testBit 1))) ∧
    (∀ es g', (∀ i, hatOk (g.hats i)) → applyAbsEvents g es = some g' →
      ∀ i, hatOk (g'.hats i)) := by
  constructor
  · intro code value g' hhat hs
    by_cases hidx : 0 ≤ g.absMap code ∧ g.absMap code < 4
    · rw [handleAbsEvent_hat g code value hhat hidx] at hs
      obtain rfl := Option.some.inj hs
      constructor
      · intro hax
        simp only [Function.update_same]
        rw [hax]
        exact newHatMask_xAxis (g.hats (g.absMap code).toNat) value
      · intro hax
        simp only [Function.update_same]
        rw [hax]
        exact newHatMask_yAxis (g.hats (g.absMap code).toNat) value
    · rw [handleAbsEvent_hat_none g code value hhat hidx] at hs
      exact absurd hs (by simp)
  · exact fun es g' h happ => hatOk_applyAbsEvents es g g' h happ

/-- Witness for `claim_C7`: feeding hat-0 X = -1 then hat-0 Y = +1
through `handleAbsEvent` from the centered state keeps the mask mutually
exclusive. -/
theorem claim_C7_witness :
    hatOk (((applyAbsEvents gHat [(16, -1), (17, 1)]).getD (zeroGamepad [] [])).hats 0) := by
  have h := (claim_C7 gHat).2 [(16, -1), (17, 1)]
    ((applyAbsEvents gHat [(16, -1), (17, 1)]).getD (zeroGamepad [] []))
    (fun i => show hatOk 0 from ⟨by decide, by decide⟩) rfl 0
  exact h

/-- C10 (confirmed).  The three public per-device queries are total: any
index below 0 or at or above the corresponding count yields the neutral
default (`0`, `false`, `hatCentered`), and under the discovery-time count
bounds no in-range access can fall outside the state arrays (no panic,
modelled by the result never being `none`). -/
theorem claim_C10 (g : Gamepad) (i : Int) :
    ((i < 0 ∨ (g.axisCount_ : Int) ≤ i) → axisValue g i = some 0) ∧
    ((i < 0 ∨ (g.buttonCount_ : Int) ≤ i) → isButtonPressed g i = some false) ∧
    ((i < 0 ∨ (g.hatCount_ : Int) ≤ i) → hatState g i = some hatCentered) ∧
    (countsWF g →
      (axisValue g i).isSome ∧ (isButtonPressed g i).isSome ∧ (hatState g i).isSome) := by
  refine ⟨fun h => ?_, fun h => ?_, fun h => ?_, fun hwf => ⟨?_, ?_, ?_⟩⟩
  · unfold axisValue
    rw [if_pos h]
  · unfold isButtonPressed
    rw [if_pos h]
  · unfold hatState
    rw [if_pos h]
  · unfold axisValue
    by_cases h : i < 0 ∨ (g.axisCount_ : Int) ≤ i
    · rw [if_pos h]
      rfl
    · rw [if_neg h, if_pos (by push_neg at h; have := hwf.1; omega)]
      rfl
  · unfold isButtonPressed
    by_cases h : i < 0 ∨ (g.buttonCount_ : Int) ≤ i
    · rw [if_pos h]
      rfl
    · rw [if_neg h, if_pos (by push_neg at h; have := hwf.2.1; omega)]
      rfl
  · unfold hatState
    by_cases h : i < 0 ∨ (g.hatCount_ : Int) ≤ i
    · rw [if_pos h]
      rfl
    · rw [if_neg h, if_pos (by push_neg at h; have := hwf.2.2; omega)]
      rfl

/-- Witness for `claim_C10` on the zero-valued gamepad at out-of-range
indices. -/
theorem claim_C10_witness :
    axisValue (zeroGamepad [] []) 5 = some 0 ∧
    isButtonPressed (zeroGamepad [] []) (-1) = some false ∧
    (hatState (zeroGamepad [] []) 2).isSome := by
  refine ⟨?_, ?_, ?_⟩
  · exact (claim_C10 (zeroGamepad [] []) 5).1 (by decide)
  · exact (claim_C10 (zeroGamepad [] []) (-1)).2.1 (by decide)
  · exact ((claim_C10 (zeroGamepad [] []) 2).2.2.2
      ⟨by decide, by decide, by decide⟩).2.2

theorem forall_mem_append {α : Type} (P : α → Prop) (l1 l2 : List α)
    (h1 : ∀ c ∈ l1, P c) (h2 : ∀ c ∈ l2, P c) : ∀ c ∈ l1 ++ l2, P c := by
  intro c hc
  rcases List.mem_append.mp hc with h | h
  exacts [h1 c h, h2 c h]

theorem isHexLower_hexDigit (n : Nat) (h : n < 16) : isHexLower (hexDigit n) := by
  interval_cases n <;> decide

theorem byteHex_hex (b : Nat) (h : b < 256) : ∀ c ∈ byteHex b, isHexLower c := by
  intro c hc
  rcases List.mem_cons.mp hc with rfl | hc2
  · exact isHexLower_hexDigit _ (by omega)
  · rw [List.mem_singleton.mp hc2]
    exact isHexLower_hexDigit _ (Nat.mod_lt _ (by norm_num))

theorem pad4_hex : ∀ c ∈ ['0', '0', '0', '0'], isHexLower c := by decide

theorem byteHexMod_hex (x : Nat) : ∀ c ∈ byteHex (x % 256), isHexLower c :=
  byteHex_hex _ (Nat.mod_lt _ (by norm_num))

theorem length_flatten_byteHex (l : List Nat) :
    ((l.map byteHex).flatten).length = 2 * l.length := by
  induction l with
  | nil => rfl
  | cons b l ih =>
    simp only [List.map_cons, List.flatten_cons, List.length_append, ih,
      List.length_cons, byteHex, List.length_nil]
    omega

/-- The source's name padding agrees with the spec's "pad/truncate to
exactly 12 bytes" on the 12 bytes actually used. -/
theorem padName_take_eq_specPad12 (bs : List Nat) :
    (padName bs).take 12 = specPad12 bs := by
  unfold padName specPad12
  by_cases h : bs.length < 12
  · rw [if_pos h]
    rw [List.take_append_eq_append_take, List.take_append_eq_append_take,
      List.take_replicate, List.take_replicate]
    have hmin : (12 - bs.length) ⊓ (12 - bs.length) = (12 - bs.length) ⊓ 12 := by omega
    rw [hmin]
  · rw [if_neg h]
    rw [List.take_append_eq_append_take, List.take_replicate]
    have h0 : 12 - bs.length = 0 := by omega
    rw [h0]
    simp

theorem specPad12_length (bs : List Nat) : (specPad12 bs).length = 12 := by
  unfold specPad12
  rw [List.length_take, List.length_append, List.length_replicate]
  omega

theorem specPad12_bytes (bs : List Nat) (h : ∀ b ∈ bs, b < 256) :
    ∀ b ∈ specPad12 bs, b < 256 := by
  intro b hb
  unfold specPad12 at hb
  have := List.mem_of_mem_take hb
  rcases List.mem_append.mp this with h1 | h2
  · exact h b h1
  · rw [List.eq_of_mem_replicate h2]
    omega

/-- C4 (confirmed).  When vendor, product and version are all non-zero the
synthesizer takes the hardware-ID branch (independently of the name), and
the result matches the documented layout — four little-endian 16-bit
fields, each as 4 lowercase hex digits followed by fixed `0000` padding —
byte for byte, is exactly 32 characters long, and consists of lowercase
hex characters only. -/
theorem claim_C4 (id : input_id) (name : List Nat)
    (hv : id.vendor ≠ 0) (hp : id.product ≠ 0) (hver : id.version ≠ 0) :
    synthesizeSDLID id name = sdlIDFromIds id ∧
    synthesizeSDLID id name = specIDLayout id.bustype id.vendor id.product id.version ∧
    (synthesizeSDLID id name).length = 32 ∧
    ∀ c ∈ synthesizeSDLID id name, isHexLower c := by
  have hbr : synthesizeSDLID id name = sdlIDFromIds id := by
    unfold synthesizeSDLID
    rw [if_pos ⟨hv, hp, hver⟩]
  refine ⟨hbr, ?_, ?_, ?_⟩
  · rw [hbr]
    simp [sdlIDFromIds, specIDLayout, specHex4LE, List.append_assoc]
  · rw [hbr]
    simp only [sdlIDFromIds, byteHex, List.length_append, List.length_cons,
      List.length_nil]
  · rw [hbr]
    unfold sdlIDFromIds
    refine forall_mem_append _ _ _ ?_ pad4_hex
    refine forall_mem_append _ _ _ ?_ (byteHexMod_hex _)
    refine forall_mem_append _ _ _ ?_ (byteHexMod_hex _)
    refine forall_mem_append _ _ _ ?_ pad4_hex
    refine forall_mem_append _ _ _ ?_ (byteHexMod_hex _)
    refine forall_mem_append _ _ _ ?_ (byteHexMod_hex _)
    refine forall_mem_append _ _ _ ?_ pad4_hex
    refine forall_mem_append _ _ _ ?_ (byteHexMod_hex _)
    refine forall_mem_append _ _ _ ?_ (byteHexMod_hex _)
    refine forall_mem_append _ _ _ ?_ pad4_hex
    exact forall_mem_append _ _ _ (byteHexMod_hex _) (byteHexMod_hex _)

/-- Witness for `claim_C4` at a concrete identity (bus 3, vendor 1118,
product 654, version 272). -/
theorem claim_C4_witness :
    synthesizeSDLID ⟨3, 1118, 654, 272⟩ [] = specIDLayout 3 1118 654 272 ∧
    (synthesizeSDLID ⟨3, 1118, 654, 272⟩ []).length = 32 := by
  have h := claim_C4 ⟨3, 1118, 654, 272⟩ [] (by decide) (by decide) (by decide)
  exact ⟨h.2.1, h.2.2.1⟩

/-- C5 (confirmed).  When vendor, product and version are not all
non-zero, the synthesizer takes the name-based fallback: the name is
padded (with zero bytes) or truncated to exactly 12 bytes, and the
identifier is the bus type in the little-endian 4-hex-digit-plus-`0000`
form followed by those 12 bytes as 24 hex digits — 32 lowercase hex
characters in total, depending only on the bus type and the name. -/
theorem claim_C5 (id : input_id) (name : List Nat)
    (hcond : ¬(id.vendor ≠ 0 ∧ id.product ≠ 0 ∧ id.version ≠ 0))
    (hbytes : ∀ b ∈ name, b < 256) :
    synthesizeSDLID id name = sdlIDFromName id.bustype name ∧
    synthesizeSDLID id name = specNameLayout id.bustype (specPad12 name) ∧
    (specPad12 name).length = 12 ∧
    (synthesizeSDLID id name).length = 32 ∧
    ∀ c ∈ synthesizeSDLID id name, isHexLower c := by
  have hbr : synthesizeSDLID id name = sdlIDFromName id.bustype name := by
    unfold synthesizeSDLID
    rw [if_neg hcond]
  have hpad := padName_take_eq_specPad12 name
  have hlay : sdlIDFromName id.bustype name =
      specNameLayout id.bustype (specPad12 name) := by
    unfold sdlIDFromName specNameLayout specHex4LE
    rw [hpad]
  refine ⟨hbr, by rw [hbr, hlay], specPad12_length name, ?_, ?_⟩
  · rw [hbr, hlay]
    unfold specNameLayout specHex4LE
    simp only [List.length_append, byteHex, List.length_cons, List.length_nil,
      length_flatten_byteHex, specPad12_length]
  · rw [hbr, hlay]
    unfold specNameLayout specHex4LE
    refine forall_mem_append _ _ _ ?_ ?_
    · refine forall_mem_append _ _ _ ?_ pad4_hex
      exact forall_mem_append _ _ _ (byteHexMod_hex _) (byteHexMod_hex _)
    intro c hc
    obtain ⟨l, hl, hcl⟩ := List.mem_flatten.mp hc
    obtain ⟨b, hb, rfl⟩ := List.mem_map.mp hl
    exact byteHex_hex b (specPad12_bytes name hbytes b hb) c hcl

/-- Witness for `claim_C5` at a concrete input: all-zero identity, bus 3,
one-byte name. -/
theorem claim_C5_witness :
    synthesizeSDLID ⟨3, 0, 0, 0⟩ [65] = specNameLayout 3 (specPad12 [65]) ∧
    (synthesizeSDLID ⟨3, 0, 0, 0⟩ [65]).length = 32 := by
  have h := claim_C5 ⟨3, 0, 0, 0⟩ [65] (by decide) (by decide)
  exact ⟨h.2.1, h.2.2.2.1⟩

/-- Setting the dropped flag on a state where it is already set is the
identity (structure eta). -/
theorem dropped_eta (g : Gamepad) (h : g.dropped = true) :
    ({ g with dropped := true } : Gamepad) = g := by
  cases g with
  | mk n s p f km am ai d ax bu ha ac bc hc =>
    have h' : d = true := h
    subst h'
    rfl

/-- C8 (confirmed).  While `dropped` is set, no button, axis or hat state
changes on any incoming event: a synchronization event with the
report-complete sub-code clears the flag and replaces the state by the
full resynchronization result, a synchronization event with the overflow
sub-code leaves the (already dropped) state untouched, and every other
event leaves the state untouched; moreover an overflow event always sets
`dropped`, changing nothing else. -/
theorem claim_C8 (absQuery : Nat → Option input_absinfo) (g : Gamepad) (e : input_event) :
    (g.dropped = true →
      (e.typ = EV_SYN ∧ e.code = SYN_REPORT →
        updateStep absQuery g e =
          some (pollAbsState absQuery { g with dropped := false }).1) ∧
      (e.typ = EV_SYN ∧ e.code = SYN_DROPPED → updateStep absQuery g e = some g) ∧
      (¬(e.typ = EV_SYN ∧ (e.code = SYN_REPORT ∨ e.code = SYN_DROPPED)) →
        updateStep absQuery g e = some g)) ∧
    (e.typ = EV_SYN ∧ e.code = SYN_DROPPED →
      updateStep absQuery g e = some { g with dropped := true }) := by
  constructor
  · intro hd
    refine ⟨fun ⟨ht, hc⟩ => ?_, fun ⟨ht, hc⟩ => ?_, fun hn => ?_⟩
    · simp [updateStep, ht, hc, EV_SYN, EV_KEY, EV_ABS, SYN_REPORT, SYN_DROPPED]
    · have he : ({ g with dropped := true } : Gamepad) = g := dropped_eta g hd
      simp [updateStep, ht, hc, he, hd, EV_SYN, EV_KEY, EV_ABS, SYN_REPORT, SYN_DROPPED]
    · by_cases ht : e.typ = EV_SYN
      · have hc0 : e.code ≠ SYN_REPORT := fun hh => hn ⟨ht, Or.inl hh⟩
        have hc3 : e.code ≠ SYN_DROPPED := fun hh => hn ⟨ht, Or.inr hh⟩
        simp [updateStep, ht, hc0, hc3, hd, EV_SYN, EV_KEY, EV_ABS]
      · simp [updateStep, ht, hd]
  · intro ⟨ht, hc⟩
    simp [updateStep, ht, hc, EV_SYN, SYN_DROPPED]

/-- Witness for `claim_C8`: in the dropped state a key event is ignored,
and from a clean state an overflow event only sets the flag. -/
theorem claim_C8_witness :
    updateStep (fun _ => none) gDropped ⟨1, 300, 1⟩ = some gDropped ∧
    updateStep (fun _ => none) (zeroGamepad [] []) ⟨0, 3, 0⟩ =
      some { zeroGamepad [] [] with dropped := true } := by
  constructor
  · exact ((claim_C8 (fun _ => none) gDropped ⟨1, 300, 1⟩).1 rfl).2.2 (by decide)
  · exact (claim_C8 (fun _ => none) (zeroGamepad [] []) ⟨0, 3, 0⟩).2 ⟨rfl, rfl⟩

/-- C9 (confirmed).  Opening a path that is already registered is a
no-op: no open system call is issued, the registry is returned unchanged,
and no error is reported. -/
theorem claim_C9 (env : Env) (registry : List Gamepad) (path : String)
    (h : (gamepadsFind registry (fun gp => gp.path == path)).isSome) :
    openGamepad env registry path = ⟨registry, false, false, none⟩ := by
  unfold openGamepad
  rw [if_pos h]

/-- Witness for `claim_C9`: re-opening `/dev/input/event0` on a registry
that already holds it. -/
theorem claim_C9_witness :
    openGamepad envEmpty reg1 "/dev/input/event0" = ⟨reg1, false, false, none⟩ :=
  claim_C9 envEmpty reg1 "/dev/input/event0" (by decide)

theorem handleAbsEvent_path (g g' : Gamepad) (c : Nat) (v : Int)
    (h : handleAbsEvent g c v = some g') : g'.path = g.path := by
  simp only [handleAbsEvent] at h
  split at h
  · split at h
    · split at h
      · obtain rfl := Option.some.inj h
        rfl
      · exact absurd h (by simp)
    · split at h
      · obtain rfl := Option.some.inj h
        rfl
      · exact absurd h (by simp)
  · exact absurd h (by simp)

theorem pollAbsStep_path (absQuery : Nat → Option input_absinfo)
    (st : Gamepad × Bool) (code : Nat) :
    ((pollAbsStep absQuery st code).1).path = st.1.path := by
  unfold pollAbsStep
  by_cases h1 : st.2
  · rw [if_pos h1]
  · rw [if_neg h1]
    by_cases h2 : st.1.absMap code < 0
    · rw [if_pos h2]
    · rw [if_neg h2]
      cases hq : absQuery code with
      | none => rfl
      | some info =>
        simp only
        cases hh : handleAbsEvent
            { st.1 with absInfo := Function.update st.1.absInfo code info } code info.value with
        | none => rfl
        | some g2 =>
          simp only
          have hp := handleAbsEvent_path _ g2 code info.value hh
          exact hp

theorem pollFold_path (absQuery : Nat → Option input_absinfo) (l : List Nat) :
    ∀ st : Gamepad × Bool, ((l.foldl (pollAbsStep absQuery) st).1).path = st.1.path := by
  induction l with
  | nil => intro st; rfl
  | cons c l ih =>
    intro st
    rw [List.foldl_cons]
    rw [ih (pollAbsStep absQuery st c)]
    exact pollAbsStep_path absQuery st c

theorem pollAbsState_path (absQuery : Nat → Option input_absinfo) (g : Gamepad) :
    (pollAbsState absQuery g).1.path = g.path := by
  unfold pollAbsState
  exact pollFold_path absQuery (List.range ABS_CNT) (g, false)

/-- Once the capability checks pass, `openGamepad` appends an entry for
the path to the registry regardless of whether the calibration queries or
the initial resynchronization later fail. -/
theorem openGamepad_registers (env : Env) (registry : List Gamepad) (path : String)
    (fd : Nat) (evBits keyBits absBits : Nat → Bool) (id : input_id)
    (hfind : gamepadsFind registry (fun gp => gp.path == path) = none)
    (hopen : env.openResult = OpenResult.ok fd)
    (h1 : env.evBits = some evBits) (h2 : env.keyBits = some keyBits)
    (h3 : env.absBits = some absBits) (h4 : env.devID = some id)
    (hk : evBits EV_KEY = true) (ha : evBits EV_ABS = true) :
    (openGamepad env registry path).registry.length = registry.length + 1 ∧
    ((openGamepad env registry path).registry.getLast?).map Gamepad.path = some path := by
  simp only [openGamepad, hfind, hopen, h1, h2, h3, h4, hk, ha,
    Option.isSome_none, Bool.false_eq_true, if_false]
  simp only [Bool.true_eq_false, if_false]
  split
  · refine ⟨by simp, ?_⟩
    rw [List.getLast?_concat]
    rfl
  · split
    · refine ⟨by simp, ?_⟩
      rw [List.getLast?_concat]
      simp only [Option.map_some', Option.some.injEq]
      rw [pollAbsState_path]
    · refine ⟨by simp, ?_⟩
      rw [List.getLast?_concat]
      simp only [Option.map_some', Option.some.injEq]
      rw [pollAbsState_path]

/-- C2 (corrected).  For a new path whose device file opens successfully:
a fatal error from any of the four capability/identity queries
(event-type bitmap, key bitmap, absolute-axis bitmap, identity) occurs
before registration and leaves the registry unchanged; but once the
capability checks pass, the device is registered (appended with the given
path) BEFORE the per-axis calibration queries and the initial
resynchronization run, so a fatal error there leaves the partially probed
device registered — the claim as stated is false for those errors (see
`claim_C2_counterexample`). -/
theorem claim_C2 (env : Env) (registry : List Gamepad) (path : String) (fd : Nat)
    (hfind : gamepadsFind registry (fun gp => gp.path == path) = none)
    (hopen : env.openResult = OpenResult.ok fd) :
    (env.evBits = none →
      openGamepad env registry path = ⟨registry, true, true, some "evBits"⟩) ∧
    (∀ evBits, env.evBits = some evBits → env.keyBits = none →
      openGamepad env registry path = ⟨registry, true, true, some "keyBits"⟩) ∧
    (∀ evBits keyBits, env.evBits = some evBits → env.keyBits = some keyBits →
      env.absBits = none →
      openGamepad env registry path = ⟨registry, true, true, some "absBits"⟩) ∧
    (∀ evBits keyBits absBits, env.evBits = some evBits → env.keyBits = some keyBits →
      env.absBits = some absBits → env.devID = none →
      openGamepad env registry path = ⟨registry, true, true, some "id"⟩) ∧
    (∀ evBits keyBits absBits id, env.evBits = some evBits → env.keyBits = some keyBits →
      env.absBits = some absBits → env.devID = some id →
      evBits EV_KEY = true → evBits EV_ABS = true →
      (openGamepad env registry path).registry.length = registry.length + 1 ∧
      ((openGamepad env registry path).registry.getLast?).map Gamepad.path = some path) := by
  refine ⟨fun h1 => ?_, fun evBits h1 h2 => ?_, fun evBits keyBits h1 h2 h3 => ?_,
    fun evBits keyBits absBits h1 h2 h3 h4 => ?_,
    fun evBits keyBits absBits id h1 h2 h3 h4 hk ha => ?_⟩
  · simp [openGamepad, hfind, hopen, h1]
  · simp [openGamepad, hfind, hopen, h1, h2]
  · simp [openGamepad, hfind, hopen, h1, h2, h3]
  · simp [openGamepad, hfind, hopen, h1, h2, h3, h4]
  · exact openGamepad_registers env registry path fd evBits keyBits absBits id
      hfind hopen h1 h2 h3 h4 hk ha

/-- C2 counterexample: in `envCalibFail` the device passes its capability
checks but the calibration ioctl for axis code 0 fails; `openGamepad`
returns an error, yet the partially probed device for the path remains
registered — contradicting "no LogicalGamepad for that path remains
registered". -/
theorem claim_C2_counterexample :
    (openGamepad envCalibFail [] "/dev/input/event7").err = some "absinfo" ∧
    ((openGamepad envCalibFail [] "/dev/input/event7").registry.map Gamepad.path) =
      ["/dev/input/event7"] := by
  constructor
  · rfl
  · rfl

/-- Witness for `claim_C2`: a failing event-type-bitmap query on a fresh
path reports an error and leaves the empty registry unchanged. -/
theorem claim_C2_witness :
    openGamepad envEvFail [] "/dev/input/event1" = ⟨[], true, true, some "evBits"⟩ :=
  (claim_C2 envEvFail [] "/dev/input/event1" 3 rfl rfl).1 rfl

/-- C3 (corrected).  After a successful open with all capability queries
succeeding, `openGamepad` rejects the device (closes the handle, keeps
the registry unchanged, and returns no error) exactly when the event-type
bitmap lacks key-events support OR lacks absolute-axis support — not only
when it lacks both, as the claim states: a device supporting exactly one
of the two is still rejected (see `claim_C3_counterexample`). -/
theorem claim_C3 (env : Env) (registry : List Gamepad) (path : String) (fd : Nat)
    (evBits keyBits absBits : Nat → Bool) (id : input_id)
    (hfind : gamepadsFind registry (fun gp => gp.path == path) = none)
    (hopen : env.openResult = OpenResult.ok fd)
    (hev : env.evBits = some evBits) (hkey : env.keyBits = some keyBits)
    (habs : env.absBits = some absBits) (hid : env.devID = some id) :
    openGamepad env registry path = ⟨registry, true, true, none⟩ ↔
      (evBits EV_KEY = false ∨ evBits EV_ABS = false) := by
  constructor
  · intro hout
    by_cases hk : evBits EV_KEY = false
    · exact Or.inl hk
    · by_cases ha : evBits EV_ABS = false
      · exact Or.inr ha
      · exfalso
        have hk' : evBits EV_KEY = true := by
          cases hkb : evBits EV_KEY
          · exact absurd hkb hk
          · rfl
        have ha' : evBits EV_ABS = true := by
          cases hab : evBits EV_ABS
          · exact absurd hab ha
          · rfl
        have hlen := congrArg (fun o => o.registry.length) hout
        have hreg := openGamepad_registers env registry path fd
          evBits keyBits absBits id hfind hopen hev hkey habs hid hk' ha'
        simp only at hlen
        rw [hlen] at hreg
        omega
  · intro hrej
    rcases hrej with hk | ha
    · simp [openGamepad, hfind, hopen, hev, hkey, habs, hid, hk]
    · by_cases hk : evBits EV_KEY = false
      · simp [openGamepad, hfind, hopen, hev, hkey, habs, hid, hk]
      · have hk' : evBits EV_KEY = true := by
          cases hkb : evBits EV_KEY
          · exact absurd hkb hk
          · rfl
        simp [openGamepad, hfind, hopen, hev, hkey, habs, hid, hk', ha]

/-- C3 counterexample: the `envKeyOnly` device supports key events (one
of the two event classes) yet is rejected — the registry stays empty and
no error is reported — refuting "a device supporting at least one of the
two is not rejected". -/
theorem claim_C3_counterexample :
    (fun c => c == 1) EV_KEY = true ∧
    openGamepad envKeyOnly [] "/dev/input/event2" = ⟨[], true, true, none⟩ := by
  constructor
  · rfl
  · rfl

/-- Witness for `claim_C3`: a device with absolute axes but no key events
is rejected. -/
theorem claim_C3_witness :
    openGamepad envAbsOnly [] "/dev/input/event3" = ⟨[], true, true, none⟩ := by
  have h := claim_C3 envAbsOnly [] "/dev/input/event3" 3
    (fun c => c == 3) (fun _ => false) (fun _ => false) ⟨3, 1, 1, 1⟩
    rfl rfl rfl rfl rfl rfl
  exact h.mpr (Or.inl (by decide))

/-! ### Rank lemmas for the dense index assignment -/

theorem filter_card_strict_mono {P : Nat → Prop} [DecidablePred P]
    (c N : Nat) (hc : c < N) (hP : P c) :
    ((Finset.range c).filter P).card < ((Finset.range N).filter P).card := by
  apply Finset.card_lt_card
  constructor
  · exact Finset.filter_subset_filter P (Finset.range_subset.mpr hc.le)
  · intro hsub
    have hmem : c ∈ (Finset.range N).filter P :=
      Finset.mem_filter.mpr ⟨Finset.mem_range.mpr hc, hP⟩
    have := Finset.mem_filter.mp (hsub hmem)
    exact absurd (Finset.mem_range.mp this.1) (lt_irrefl c)

theorem filter_card_surj {P : Nat → Prop} [DecidablePred P] (N : Nat) :
    ∀ i, i < ((Finset.range N).filter P).card →
      ∃ c, c < N ∧ P c ∧ ((Finset.range c).filter P).card = i := by
  induction N with
  | zero => intro i hi; simp at hi
  | succ N ih =>
    intro i hi
    rw [Finset.range_succ, Finset.filter_insert] at hi
    by_cases hP : P N
    · rw [if_pos hP, Finset.card_insert_of_not_mem (by simp)] at hi
      rcases Nat.lt_succ_iff_lt_or_eq.mp hi with h | h
      · obtain ⟨c, hc, hPc, hr⟩ := ih i h
        exact ⟨c, Nat.lt_succ_of_lt hc, hPc, hr⟩
      · exact ⟨N, Nat.lt_succ_self N, hP, h.symm⟩
    · rw [if_neg hP] at hi
      obtain ⟨c, hc, hPc, hr⟩ := ih i hi
      exact ⟨c, Nat.lt_succ_of_lt hc, hPc, hr⟩

theorem rankKey_succ (bits : Nat → Bool) (n : Nat) :
    rankKey bits (n + 1) =
      rankKey bits n + (if BTN_MISC ≤ n ∧ bits n = true then 1 else 0) := by
  unfold rankKey
  rw [Finset.range_succ, Finset.filter_insert]
  split_ifs with h
  · rw [Finset.card_insert_of_not_mem (by simp)]
  · rfl

theorem rankAxis_succ (bits : Nat → Bool) (n : Nat) :
    rankAxis bits (n + 1) =
      rankAxis bits n + (if bits n = true ∧ ¬hatRange n then 1 else 0) := by
  unfold rankAxis
  rw [Finset.range_succ, Finset.filter_insert]
  split_ifs with h
  · rw [Finset.card_insert_of_not_mem (by simp)]
  · rfl

theorem rankHat_succ (bits : Nat → Bool) (n : Nat) :
    rankHat bits (n + 1) =
      rankHat bits n +
        (if bits n = true ∧ hatRange n ∧ (n - ABS_HAT0X) % 2 = 0 then 1 else 0) := by
  unfold rankHat
  rw [Finset.range_succ, Finset.filter_insert]
  split_ifs with h
  · rw [Finset.card_insert_of_not_mem (by simp)]
  · rfl

theorem keyStep_eq (bits : Nat → Bool) (st : KeySt) (code : Nat) :
    keyStep bits st code =
      if bits code = true then
        ⟨Function.update st.keyMap (code - BTN_MISC) (st.buttonCount : Int),
          st.buttonCount + 1⟩
      else st := rfl

/-- Characterization of the key-code mapping loop after processing the
first `n` codes of `[_BTN_MISC, _KEY_CNT)`: the counter equals the rank
of `_BTN_MISC + n`, present processed codes hold their rank, and entries
beyond the processed range still hold the initial value. -/
theorem keyFold_char (bits : Nat → Bool) (init : Nat → Int) (n : Nat) :
    ((List.range' BTN_MISC n).foldl (keyStep bits) ⟨init, 0⟩).buttonCount =
      rankKey bits (BTN_MISC + n) ∧
    (∀ c, BTN_MISC ≤ c → c < BTN_MISC + n → bits c = true →
      ((List.range' BTN_MISC n).foldl (keyStep bits) ⟨init, 0⟩).keyMap (c - BTN_MISC) =
        (rankKey bits c : Int)) ∧
    (∀ j, n ≤ j →
      ((List.range' BTN_MISC n).foldl (keyStep bits) ⟨init, 0⟩).keyMap j = init j) := by
  induction n with
  | zero =>
    refine ⟨?_, fun c hc1 hc2 _ => absurd hc2 (by omega), fun j _ => rfl⟩
    unfold rankKey
    have : ((Finset.range (BTN_MISC + 0)).filter
        (fun c' => BTN_MISC ≤ c' ∧ bits c' = true)) = ∅ := by
      apply Finset.filter_false_of_mem
      intro x hx
      have := Finset.mem_range.mp hx
      intro hcon
      omega
    rw [this]
    rfl
  | succ n ih =>
    obtain ⟨ih1, ih2, ih3⟩ := ih
    have hsplit : List.range' BTN_MISC (n + 1) =
        List.range' BTN_MISC n ++ [BTN_MISC + n] := by
      rw [List.range'_concat, one_mul]
    rw [hsplit, List.foldl_append, List.foldl_cons, List.foldl_nil]
    have hidx : BTN_MISC + n - BTN_MISC = n := by omega
    have hstep : BTN_MISC + (n + 1) = (BTN_MISC + n) + 1 := by omega
    rw [keyStep_eq]
    by_cases hb : bits (BTN_MISC + n) = true
    · rw [if_pos hb, hidx]
      dsimp only
      refine ⟨?_, ?_, ?_⟩
      · rw [ih1, hstep, rankKey_succ, if_pos ⟨by omega, hb⟩]
      · intro c hc1 hc2 hcb
        by_cases hcn : c = BTN_MISC + n
        · subst hcn
          rw [hidx, Function.update_same, ih1]
        · rw [Function.update_noteq (by omega)]
          exact ih2 c hc1 (by omega) hcb
      · intro j hj
        rw [Function.update_noteq (by omega)]
        exact ih3 j (by omega)
    · rw [if_neg hb]
      refine ⟨?_, ?_, ?_⟩
      · rw [ih1, hstep, rankKey_succ, if_neg (fun hcon => hb hcon.2)]
        omega
      · intro c hc1 hc2 hcb
        by_cases hcn : c = BTN_MISC + n
        · subst hcn
          exact absurd hcb hb
        · exact ih2 c hc1 (by omega) hcb
      · intro j hj
        exact ih3 j (by omega)

theorem hatRange_iff (c : Nat) : hatRange c ↔ 16 ≤ c ∧ c ≤ 23 := Iff.rfl

theorem absStep_skip (bits : Nat → Bool) (q : Nat → Option input_absinfo)
    (st : AbsSt) (code : Nat) (he : st.err = false) (hs : st.skip = true) :
    absStep bits q st code = { st with skip := false } := by
  simp only [absStep, he, hs]
  rfl

theorem absStep_absent (bits : Nat → Bool) (q : Nat → Option input_absinfo)
    (st : AbsSt) (code : Nat) (he : st.err = false) (hs : st.skip = false)
    (hb : bits code = false) :
    absStep bits q st code =
      { st with absMap := Function.update st.absMap code (-1) } := by
  simp only [absStep, he, hs, hb]
  rfl

theorem absStep_hat (bits : Nat → Bool) (q : Nat → Option input_absinfo)
    (st : AbsSt) (code : Nat) (he : st.err = false) (hs : st.skip = false)
    (hb : bits code = true) (hh : ABS_HAT0X ≤ code ∧ code ≤ ABS_HAT3Y) :
    absStep bits q st code =
      { st with
        absMap := Function.update st.absMap code (st.hatCount : Int),
        hatCount := st.hatCount + 1,
        skip := true } := by
  simp only [absStep, he, hs, hb]
  rw [if_pos hh, Function.update_idem]
  simp

theorem absStep_axis (bits : Nat → Bool) (q : Nat → Option input_absinfo)
    (st : AbsSt) (code : Nat) (info : input_absinfo) (he : st.err = false)
    (hs : st.skip = false) (hb : bits code = true)
    (hh : ¬(ABS_HAT0X ≤ code ∧ code ≤ ABS_HAT3Y)) (hq : q code = some info) :
    absStep bits q st code =
      { st with
        absInfo := Function.update st.absInfo code info,
        absMap := Function.update st.absMap code (st.axisCount : Int),
        axisCount := st.axisCount + 1 } := by
  simp only [absStep, he, hs, hb]
  rw [if_neg hh, hq, Function.update_idem]
  simp

/-- The absolute-axis mapping loop maintains `AbsInv` under a paired
bitmap and a total calibration oracle. -/
theorem absFold_inv (bits : Nat → Bool) (q : Nat → Option input_absinfo)
    (hpair : hatPaired bits) (hq : ∀ c, (q c).isSome) :
    ∀ n, n ≤ 64 → AbsInv bits n ((List.range n).foldl (absStep bits q) absInit) := by
  have e0 : ABS_HAT0X = 16 := rfl
  have e3 : ABS_HAT3Y = 23 := rfl
  intro n
  induction n with
  | zero =>
    intro _
    refine ⟨rfl, ?_, ?_, ?_, ?_, ?_, ?_, ?_, ?_, ?_, ?_⟩
    · constructor
      · intro h
        exact absurd h (by simp [absInit])
      · rintro ⟨h1, -, -, -⟩
        rw [e0] at h1
        omega
    · show (0 : Nat) = rankHat bits 0
      unfold rankHat
      simp
    · show (0 : Nat) = rankAxis bits 0
      unfold rankAxis
      simp
    · intro c hc
      exact absurd hc (by omega)
    · intro c hc
      exact absurd hc (by omega)
    · intro c hc
      exact absurd hc (by omega)
    · intro c hc
      exact absurd hc (by omega)
    · intro c hc
      exact absurd hc (by omega)
    · intro c hc
      exact absurd hc (by omega)
    · intro c _
      rfl
  | succ n ih =>
    intro hn1
    have hn : n ≤ 64 := by omega
    rw [List.range_succ, List.foldl_append, List.foldl_cons, List.foldl_nil]
    have inv := ih hn
    set st := (List.range n).foldl (absStep bits q) absInit with hst
    obtain ⟨he, hskip, hhatc, haxisc, hA, hB, hC, hD, hE, hF, hG⟩ := inv
    by_cases hsk : st.skip = true
    · -- the pending code++ from a hat assignment at n-1 consumes code n
      obtain ⟨h17, h23, hodd, hbprev⟩ := hskip.mp hsk
      rw [e0] at h17 hodd
      rw [e3] at h23
      have hhatn : hatRange n := (hatRange_iff n).mpr ⟨by omega, by omega⟩
      rw [absStep_skip bits q st n he hsk]
      refine ⟨he, ?_, ?_, ?_, ?_, ?_, ?_, ?_, ?_, ?_, ?_⟩
      · constructor
        · intro h
          exact absurd h (by simp)
        · rintro ⟨a, -, c, -⟩
          rw [e0] at a c
          omega
      · show st.hatCount = rankHat bits (n + 1)
        rw [hhatc, rankHat_succ,
          if_neg (fun hcon => by have := hcon.2.2; rw [e0] at this; omega)]
        omega
      · show st.axisCount = rankAxis bits (n + 1)
        rw [haxisc, rankAxis_succ, if_neg (fun hcon => hcon.2 hhatn)]
        omega
      · intro c hc hnh hbc
        rcases Nat.lt_succ_iff_lt_or_eq.mp hc with hlt | heq
        · exact hA c hlt hnh hbc
        · subst heq
          exact absurd hhatn hnh
      · intro c hc hnh hbc
        rcases Nat.lt_succ_iff_lt_or_eq.mp hc with hlt | heq
        · exact hB c hlt hnh hbc
        · subst heq
          exact absurd hhatn hnh
      · intro c hc hh hx hbc
        rcases Nat.lt_succ_iff_lt_or_eq.mp hc with hlt | heq
        · exact hC c hlt hh hx hbc
        · subst heq
          rw [e0] at hx
          omega
      · intro c hc hh hx hbc
        rcases Nat.lt_succ_iff_lt_or_eq.mp hc with hlt | heq
        · exact hD c hlt hh hx hbc
        · subst heq
          rw [e0] at hx
          omega
      · intro c hc hh hx hbc1
        rcases Nat.lt_succ_iff_lt_or_eq.mp hc with hlt | heq
        · exact hE c hlt hh hx hbc1
        · subst heq
          exact hG c (le_refl c)
      · intro c hc hh hx hbc1
        rcases Nat.lt_succ_iff_lt_or_eq.mp hc with hlt | heq
        · exact hF c hlt hh hx hbc1
        · subst heq
          rw [hbprev] at hbc1
          exact absurd hbc1 (by simp)
      · intro c hc
        exact hG c (by omega)
    · have hsk' : st.skip = false := by
        revert hsk
        cases st.skip <;> simp
      by_cases hb : bits n = true
      · by_cases hh : ABS_HAT0X ≤ n ∧ n ≤ ABS_HAT3Y
        · -- present hat code: under pairing it is an X code
          have hh1 : 16 ≤ n := by have := hh.1; rw [e0] at this; exact this
          have hh2 : n ≤ 23 := by have := hh.2; rw [e3] at this; exact this
          have hoff : (n - 16) % 2 = 0 := by
            by_contra hodd0
            have hodd : (n - ABS_HAT0X) % 2 = 1 := by rw [e0]; omega
            have hprev := hpair n hh hodd hb
            have hcontra : st.skip = true :=
              hskip.mpr ⟨by rw [e0]; omega, by rw [e3]; omega, hodd, hprev⟩
            rw [hsk'] at hcontra
            exact absurd hcontra (by simp)
          have hn22 : n ≤ 22 := by omega
          rw [absStep_hat bits q st n he hsk' hb hh]
          refine ⟨he, ?_, ?_, ?_, ?_, ?_, ?_, ?_, ?_, ?_, ?_⟩
          · constructor
            · intro _
              refine ⟨by rw [e0]; omega, by rw [e3]; omega, by rw [e0]; omega, ?_⟩
              simpa using hb
            · intro _
              rfl
          · show st.hatCount + 1 = rankHat bits (n + 1)
            rw [hhatc, rankHat_succ, if_pos ⟨hb, hh, by rw [e0]; omega⟩]
          · show st.axisCount = rankAxis bits (n + 1)
            rw [haxisc, rankAxis_succ, if_neg (fun hcon => hcon.2 hh)]
            omega
          · intro c hc hnh hbc
            rcases Nat.lt_succ_iff_lt_or_eq.mp hc with hlt | heq
            · show Function.update st.absMap n (st.hatCount : Int) c = _
              rw [Function.update_noteq (by omega)]
              exact hA c hlt hnh hbc
            · subst heq
              exact absurd hh hnh
          · intro c hc hnh hbc
            rcases Nat.lt_succ_iff_lt_or_eq.mp hc with hlt | heq
            · show Function.update st.absMap n (st.hatCount : Int) c = _
              rw [Function.update_noteq (by omega)]
              exact hB c hlt hnh hbc
            · subst heq
              exact absurd hh hnh
          · intro c hc hhc hx hbc
            rcases Nat.lt_succ_iff_lt_or_eq.mp hc with hlt | heq
            · show Function.update st.absMap n (st.hatCount : Int) c = _
              rw [Function.update_noteq (by omega)]
              exact hC c hlt hhc hx hbc
            · subst heq
              show Function.update st.absMap c (st.hatCount : Int) c = _
              rw [Function.update_same, hhatc]
          · intro c hc hhc hx hbc
            rcases Nat.lt_succ_iff_lt_or_eq.mp hc with hlt | heq
            · show Function.update st.absMap n (st.hatCount : Int) c = _
              rw [Function.update_noteq (by omega)]
              exact hD c hlt hhc hx hbc
            · subst heq
              rw [hbc] at hb
              exact absurd hb (by simp)
          · intro c hc hhc hx hbc1
            rcases Nat.lt_succ_iff_lt_or_eq.mp hc with hlt | heq
            · show Function.update st.absMap n (st.hatCount : Int) c = _
              rw [Function.update_noteq (by omega)]
              exact hE c hlt hhc hx hbc1
            · subst heq
              rw [e0] at hx
              omega
          · intro c hc hhc hx hbc1
            rcases Nat.lt_succ_iff_lt_or_eq.mp hc with hlt | heq
            · show Function.update st.absMap n (st.hatCount : Int) c = _
              rw [Function.update_noteq (by omega)]
              exact hF c hlt hhc hx hbc1
            · subst heq
              rw [e0] at hx
              omega
          · intro c hc
            show Function.update st.absMap n (st.hatCount : Int) c = 0
            rw [Function.update_noteq (by omega)]
            exact hG c (by omega)
        · -- present non-hat code: axis assignment, calibration queried
          obtain ⟨info, hqi⟩ := Option.isSome_iff_exists.mp (hq n)
          rw [absStep_axis bits q st n info he hsk' hb hh hqi]
          refine ⟨he, ?_, ?_, ?_, ?_, ?_, ?_, ?_, ?_, ?_, ?_⟩
          · constructor
            · intro hcon
              have hcon' : st.skip = true := hcon
              rw [hsk'] at hcon'
              exact absurd hcon' (by simp)
            · rintro ⟨a, b, c, -⟩
              rw [e0] at a c
              rw [e3] at b
              exact ((hh ⟨by rw [e0]; omega, by rw [e3]; omega⟩).elim)
          · show st.hatCount = rankHat bits (n + 1)
            rw [hhatc, rankHat_succ, if_neg (fun hcon => hh hcon.2.1)]
            omega
          · show st.axisCount + 1 = rankAxis bits (n + 1)
            rw [haxisc, rankAxis_succ, if_pos ⟨hb, hh⟩]
          · intro c hc hnh hbc
            rcases Nat.lt_succ_iff_lt_or_eq.mp hc with hlt | heq
            · show Function.update st.absMap n (st.axisCount : Int) c = _
              rw [Function.update_noteq (by omega)]
              exact hA c hlt hnh hbc
            · subst heq
              show Function.update st.absMap c (st.axisCount : Int) c = _
              rw [Function.update_same, haxisc]
          · intro c hc hnh hbc
            rcases Nat.lt_succ_iff_lt_or_eq.mp hc with hlt | heq
            · show Function.update st.absMap n (st.axisCount : Int) c = _
              rw [Function.update_noteq (by omega)]
              exact hB c hlt hnh hbc
            · subst heq
              rw [hbc] at hb
              exact absurd hb (by simp)
          · intro c hc hhc hx hbc
            rcases Nat.lt_succ_iff_lt_or_eq.mp hc with hlt | heq
            · show Function.update st.absMap n (st.axisCount : Int) c = _
              rw [Function.update_noteq (by omega)]
              exact hC c hlt hhc hx hbc
            · subst heq
              exact absurd hhc hh
          · intro c hc hhc hx hbc
            rcases Nat.lt_succ_iff_lt_or_eq.mp hc with hlt | heq
            · show Function.update st.absMap n (st.axisCount : Int) c = _
              rw [Function.update_noteq (by omega)]
              exact hD c hlt hhc hx hbc
            · subst heq
              exact absurd hhc hh
          · intro c hc hhc hx hbc1
            rcases Nat.lt_succ_iff_lt_or_eq.mp hc with hlt | heq
            · show Function.update st.absMap n (st.axisCount : Int) c = _
              rw [Function.update_noteq (by omega)]
              exact hE c hlt hhc hx hbc1
            · subst heq
              exact absurd hhc hh
          · intro c hc hhc hx hbc1
            rcases Nat.lt_succ_iff_lt_or_eq.mp hc with hlt | heq
            · show Function.update st.absMap n (st.axisCount : Int) c = _
              rw [Function.update_noteq (by omega)]
              exact hF c hlt hhc hx hbc1
            · subst heq
              exact absurd hhc hh
          · intro c hc
            show Function.update st.absMap n (st.axisCount : Int) c = 0
            rw [Function.update_noteq (by omega)]
            exact hG c (by omega)
      · -- absent code: only the -1 marker is written
        have hb' : bits n = false := by
          revert hb
          cases bits n <;> simp
        rw [absStep_absent bits q st n he hsk' hb']
        refine ⟨he, ?_, ?_, ?_, ?_, ?_, ?_, ?_, ?_, ?_, ?_⟩
        · constructor
          · intro hcon
            exact absurd hcon (by simpa using hsk')
          · rintro ⟨-, -, -, d⟩
            rw [show n + 1 - 1 = n from rfl, hb'] at d
            exact absurd d (by simp)
        · show st.hatCount = rankHat bits (n + 1)
          rw [hhatc, rankHat_succ, if_neg (fun hcon => by rw [hb'] at hcon; simp at hcon)]
          omega
        · show st.axisCount = rankAxis bits (n + 1)
          rw [haxisc, rankAxis_succ, if_neg (fun hcon => by rw [hb'] at hcon; simp at hcon)]
          omega
        · intro c hc hnh hbc
          rcases Nat.lt_succ_iff_lt_or_eq.mp hc with hlt | heq
          · show Function.update st.absMap n (-1) c = _
            rw [Function.update_noteq (by omega)]
            exact hA c hlt hnh hbc
          · subst heq
            rw [hbc] at hb'
            exact absurd hb' (by simp)
        · intro c hc hnh hbc
          rcases Nat.lt_succ_iff_lt_or_eq.mp hc with hlt | heq
          · show Function.update st.absMap n (-1) c = _
            rw [Function.update_noteq (by omega)]
            exact hB c hlt hnh hbc
          · subst heq
            show Function.update st.absMap c (-1) c = -1
            rw [Function.update_same]
        · intro c hc hhc hx hbc
          rcases Nat.lt_succ_iff_lt_or_eq.mp hc with hlt | heq
          · show Function.update st.absMap n (-1) c = _
            rw [Function.update_noteq (by omega)]
            exact hC c hlt hhc hx hbc
          · subst heq
            rw [hbc] at hb'
            exact absurd hb' (by simp)
        · intro c hc hhc hx hbc
          rcases Nat.lt_succ_iff_lt_or_eq.mp hc with hlt | heq
          · show Function.update st.absMap n (-1) c = _
            rw [Function.update_noteq (by omega)]
            exact hD c hlt hhc hx hbc
          · subst heq
            show Function.update st.absMap c (-1) c = -1
            rw [Function.update_same]
        · intro c hc hhc hx hbc1
          rcases Nat.lt_succ_iff_lt_or_eq.mp hc with hlt | heq
          · show Function.update st.absMap n (-1) c = _
            rw [Function.update_noteq (by omega)]
            exact hE c hlt hhc hx hbc1
          · subst heq
            have hh1 : 16 ≤ c := by have := hhc.1; rw [e0] at this; exact this
            have hh2 : c ≤ 23 := by have := hhc.2; rw [e3] at this; exact this
            have hx' : (c - 16) % 2 = 1 := by rw [e0] at hx; exact hx
            have hcontra : st.skip = true :=
              hskip.mpr ⟨by rw [e0]; omega, by rw [e3]; omega, by rw [e0]; omega, hbc1⟩
            rw [hsk'] at hcontra
            exact absurd hcontra (by simp)
        · intro c hc hhc hx hbc1
          rcases Nat.lt_succ_iff_lt_or_eq.mp hc with hlt | heq
          · show Function.update st.absMap n (-1) c = _
            rw [Function.update_noteq (by omega)]
            exact hF c hlt hhc hx hbc1
          · subst heq
            show Function.update st.absMap c (-1) c = -1
            rw [Function.update_same]
        · intro c hc
          show Function.update st.absMap n (-1) c = 0
          rw [Function.update_noteq (by omega)]
          exact hG c (by omega)

theorem rankKey_lt (bits : Nat → Bool) (c N : Nat) (h : c < N)
    (h1 : BTN_MISC ≤ c) (hb : bits c = true) : rankKey bits c < rankKey bits N := by
  unfold rankKey
  exact filter_card_strict_mono c N h ⟨h1, hb⟩

theorem rankAxis_lt (bits : Nat → Bool) (c N : Nat) (h : c < N)
    (hnh : ¬hatRange c) (hb : bits c = true) : rankAxis bits c < rankAxis bits N := by
  unfold rankAxis
  exact filter_card_strict_mono c N h ⟨hb, hnh⟩

theorem rankHat_lt (bits : Nat → Bool) (c N : Nat) (h : c < N)
    (hh : hatRange c) (hx : (c - ABS_HAT0X) % 2 = 0) (hb : bits c = true) :
    rankHat bits c < rankHat bits N := by
  unfold rankHat
  exact filter_card_strict_mono c N h ⟨hb, hh, hx⟩

theorem rankKey_surj (bits : Nat → Bool) (N i : Nat) (hi : i < rankKey bits N) :
    ∃ c, c < N ∧ (BTN_MISC ≤ c ∧ bits c = true) ∧ rankKey bits c = i := by
  unfold rankKey at hi ⊢
  exact filter_card_surj N i hi

theorem rankAxis_surj (bits : Nat → Bool) (N i : Nat) (hi : i < rankAxis bits N) :
    ∃ c, c < N ∧ (bits c = true ∧ ¬hatRange c) ∧ rankAxis bits c = i := by
  unfold rankAxis at hi ⊢
  exact filter_card_surj N i hi

theorem rankHat_surj (bits : Nat → Bool) (N i : Nat) (hi : i < rankHat bits N) :
    ∃ c, c < N ∧ (bits c = true ∧ hatRange c ∧ (c - ABS_HAT0X) % 2 = 0) ∧
      rankHat bits c = i := by
  unfold rankHat at hi ⊢
  exact filter_card_surj N i hi

/-- C6 (corrected).  Provided hat codes occur in aligned (X, Y) pairs
(`hatPaired` — every present Y code has its X partner present; this is
what the loop's unconditional `code++` skip assumes) and all calibration
ioctls succeed, the dense index assignment built by `openGamepad`'s two
mapping loops is a bijection on each index space: present key codes get
button indices `0..buttonCount-1` with no gaps or duplicates in ascending
code order; present non-hat absolute codes get axis indices
`0..axisCount-1` likewise; each present hat pair gets exactly one hat
index (assigned at its X code, ascending, onto `0..hatCount-1`) and
consumes its Y code, which receives no index of its own (its `absMap`
entry keeps the initial value `0`).  Without the pairing hypothesis the
claim is false for some bitmaps (see `claim_C6_counterexample`). -/
theorem claim_C6 (keyBits absBits : Nat → Bool)
    (absQuery : Nat → Option input_absinfo) (K : KeySt) (A : AbsSt)
    (hpair : hatPaired absBits) (hq : ∀ c, (absQuery c).isSome)
    (hK : K = buildKeyMap keyBits (fun _ => 0))
    (hA : A = buildAbsMaps absBits absQuery absInit) :
    (∀ c, BTN_MISC ≤ c → c < KEY_CNT → keyBits c = true →
      0 ≤ K.keyMap (c - BTN_MISC) ∧ K.keyMap (c - BTN_MISC) < (K.buttonCount : Int)) ∧
    (∀ c c', BTN_MISC ≤ c → c < c' → c' < KEY_CNT → keyBits c = true → keyBits c' = true →
      K.keyMap (c - BTN_MISC) < K.keyMap (c' - BTN_MISC)) ∧
    (∀ i : Nat, i < K.buttonCount → ∃ c, BTN_MISC ≤ c ∧ c < KEY_CNT ∧ keyBits c = true ∧
      K.keyMap (c - BTN_MISC) = (i : Int)) ∧
    (∀ c, c < ABS_CNT → ¬hatRange c → absBits c = true →
      0 ≤ A.absMap c ∧ A.absMap c < (A.axisCount : Int)) ∧
    (∀ c c', c < c' → c' < ABS_CNT → ¬hatRange c → ¬hatRange c' →
      absBits c = true → absBits c' = true → A.absMap c < A.absMap c') ∧
    (∀ i : Nat, i < A.axisCount → ∃ c, c < ABS_CNT ∧ ¬hatRange c ∧ absBits c = true ∧
      A.absMap c = (i : Int)) ∧
    (∀ c, hatRange c → (c - ABS_HAT0X) % 2 = 0 → absBits c = true →
      0 ≤ A.absMap c ∧ A.absMap c < (A.hatCount : Int)) ∧
    (∀ c c', c < c' → hatRange c → hatRange c' →
      (c - ABS_HAT0X) % 2 = 0 → (c' - ABS_HAT0X) % 2 = 0 →
      absBits c = true → absBits c' = true → A.absMap c < A.absMap c') ∧
    (∀ i : Nat, i < A.hatCount → ∃ c, hatRange c ∧ (c - ABS_HAT0X) % 2 = 0 ∧
      absBits c = true ∧ A.absMap c = (i : Int)) ∧
    (∀ c, hatRange c → (c - ABS_HAT0X) % 2 = 1 → absBits c = true →
      A.absMap c = absInit.absMap c) := by
  have eB : BTN_MISC = 256 := rfl
  have eK : KEY_CNT = 768 := rfl
  have eC : ABS_CNT = 64 := rfl
  have eSum : BTN_MISC + (KEY_CNT - BTN_MISC) = 768 := by rw [eB, eK]
  obtain ⟨KH1, KH2, -⟩ := keyFold_char keyBits (fun _ => 0) (KEY_CNT - BTN_MISC)
  rw [eSum] at KH1
  have hKm : ∀ c, BTN_MISC ≤ c → c < KEY_CNT → keyBits c = true →
      K.keyMap (c - BTN_MISC) = (rankKey keyBits c : Int) := by
    intro c h1 h2 hbc
    rw [hK]
    exact KH2 c h1 (by omega) hbc
  have hKc : K.buttonCount = rankKey keyBits 768 := by
    rw [hK]
    exact KH1
  have AH := absFold_inv absBits absQuery hpair hq 64 (le_refl 64)
  have hAeq : A = (List.range 64).foldl (absStep absBits absQuery) absInit := hA
  rw [← hAeq] at AH
  obtain ⟨-, -, hhatc, haxisc, hA1, -, hC1, -, hE1, -, -⟩ := AH
  refine ⟨?_, ?_, ?_, ?_, ?_, ?_, ?_, ?_, ?_, ?_⟩
  · intro c h1 h2 hbc
    rw [hKm c h1 h2 hbc, hKc]
    constructor
    · exact_mod_cast Nat.zero_le _
    · exact_mod_cast rankKey_lt keyBits c 768 (by omega) h1 hbc
  · intro c c' h1 hlt h2 hbc hbc'
    rw [hKm c h1 (by omega) hbc, hKm c' (by omega) h2 hbc']
    exact_mod_cast rankKey_lt keyBits c c' hlt h1 hbc
  · intro i hi
    rw [hKc] at hi
    obtain ⟨c, hc, ⟨hc1, hc2⟩, hr⟩ := rankKey_surj keyBits 768 i hi
    exact ⟨c, hc1, by omega, hc2, by rw [hKm c hc1 (by omega) hc2]; exact_mod_cast hr⟩
  · intro c hc hnh hbc
    rw [hA1 c (by omega) hnh hbc, haxisc]
    constructor
    · exact_mod_cast Nat.zero_le _
    · exact_mod_cast rankAxis_lt absBits c 64 (by omega) hnh hbc
  · intro c c' hlt hc' hnh hnh' hbc hbc'
    rw [hA1 c (by omega) hnh hbc, hA1 c' (by omega) hnh' hbc']
    exact_mod_cast rankAxis_lt absBits c c' hlt hnh hbc
  · intro i hi
    rw [haxisc] at hi
    obtain ⟨c, hc, ⟨hc1, hc2⟩, hr⟩ := rankAxis_surj absBits 64 i hi
    refine ⟨c, by omega, hc2, hc1, ?_⟩
    rw [hA1 c hc hc2 hc1]
    exact_mod_cast hr
  · intro c hhc hx hbc
    have hc64 : c < 64 := by
      have := (hatRange_iff c).mp hhc
      omega
    rw [hC1 c hc64 hhc hx hbc, hhatc]
    constructor
    · exact_mod_cast Nat.zero_le _
    · exact_mod_cast rankHat_lt absBits c 64 hc64 hhc hx hbc
  · intro c c' hlt hhc hhc' hx hx' hbc hbc'
    have hc64 : c < 64 := by
      have := (hatRange_iff c).mp hhc
      omega
    have hc64' : c' < 64 := by
      have := (hatRange_iff c').mp hhc'
      omega
    rw [hC1 c hc64 hhc hx hbc, hC1 c' hc64' hhc' hx' hbc']
    exact_mod_cast rankHat_lt absBits c c' hlt hhc hx hbc
  · intro i hi
    rw [hhatc] at hi
    obtain ⟨c, hc, ⟨hc1, hc2, hc3⟩, hr⟩ := rankHat_surj absBits 64 i hi
    refine ⟨c, hc2, hc3, hc1, ?_⟩
    rw [hC1 c hc hc2 hc3 hc1]
    exact_mod_cast hr
  · intro c hhc hx hbc
    have hc64 : c < 64 := by
      have := (hatRange_iff c).mp hhc
      omega
    have hprev := hpair c hhc hx hbc
    exact hE1 c hc64 hhc hx hprev

/-- C6 counterexample: with only `_ABS_HAT0Y` (17) and `_ABS_HAT1X` (18)
present, the loop assigns hat index 0 at code 17 and its `code++` skip
consumes code 18 — a present hat code of a DIFFERENT pad — which never
receives an index (its entry keeps the initial 0).  Two distinct present
hat codes end up with the same entry value while only one hat is counted,
so the assignment is not a bijection for every bitmap content. -/
theorem claim_C6_counterexample :
    bitsYonly 17 = true ∧ bitsYonly 18 = true ∧
    (buildAbsMaps bitsYonly qZero absInit).hatCount = 1 ∧
    (buildAbsMaps bitsYonly qZero absInit).absMap 17 = 0 ∧
    (buildAbsMaps bitsYonly qZero absInit).absMap 18 = 0 := by
  refine ⟨rfl, rfl, ?_, ?_, ?_⟩ <;> decide

/-- Witness for `claim_C6` on a well-paired bitmap (axis code 0, hat pair
16/17): the hat X code receives a valid hat index. -/
theorem claim_C6_witness :
    0 ≤ (buildAbsMaps bitsW qZero absInit).absMap 16 ∧
    (buildAbsMaps bitsW qZero absInit).absMap 16 <
      ((buildAbsMaps bitsW qZero absInit).hatCount : Int) := by
  have h := claim_C6 (fun _ => false) bitsW qZero
    (buildKeyMap (fun _ => false) (fun _ => 0)) (buildAbsMaps bitsW qZero absInit)
    (fun c hr hodd hb => by
      obtain ⟨h1, h2⟩ := (hatRange_iff c).mp hr
      interval_cases c <;> simp_all [bitsW, ABS_HAT0X])
    (fun c => rfl) rfl rfl
  exact h.2.2.2.2.2.2.1 16 ((hatRange_iff 16).mpr (by omega)) (by decide) (by decide)
